import Mathlib

/-!
Shallow embedding of the contract extraction-and-scoring pipeline of
`backend/app/services/contract_parser.py` (class `ContractParser`), together
with proofs about the behaviour its specification describes.

Text is represented as `List Char`.  Python `re` pattern matching is embedded
by a small backtracking matcher over a regular-expression syntax tree: the
matcher returns the list of all candidate match results in Python's
backtracking preference order (alternatives left to right, repetitions
greedy), so the head of the list is the match Python's engine reports.
Monetary values (Python floats holding exactly-parsed decimal literals) are
embedded as exact rationals, and the integer-valued confidence points (which
the source keeps in floats that only ever hold small integers) as naturals.
-/

/-- Python's whitespace class `\s` on `str` (and the whitespace stripped by
`str.strip()`): ASCII whitespace plus the Unicode whitespace code points. -/
def isPySpace (c : Char) : Bool :=
  c = ' ' || c = '\t' || c = '\n' || c = '\r' || c.val = 11 || c.val = 12 ||
  (28 ≤ c.val && c.val ≤ 31) || c.val = 133 || c.val = 160 || c.val = 0x1680 ||
  (0x2000 ≤ c.val && c.val ≤ 0x200a) || c.val = 0x2028 || c.val = 0x2029 ||
  c.val = 0x202f || c.val = 0x205f || c.val = 0x3000

/-- Python's word-character class `\w` restricted to ASCII (the texts the
patterns are aimed at); used for the `\b` word-boundary assertion. -/
def isPyWordChar (c : Char) : Bool :=
  c.isAlphanum || c = '_'

/-- Captured group spans `(start, end)` of the up to three groups a pattern
of the source uses (`None` when a group did not participate). -/
structure Caps where
  g1 : Option (Nat × Nat) := none
  g2 : Option (Nat × Nat) := none
  g3 : Option (Nat × Nat) := none
deriving DecidableEq, Repr

/-- Syntax of the regular expressions the source's patterns compile to.
Repetition only ever occurs over single character classes in the source's
patterns, which keeps the matcher structurally recursive. -/
inductive RE where
  | eps : RE
  | cls : (Char → Bool) → RE
  | seq : RE → RE → RE
  | alt : RE → RE → RE
  | starCls : (Char → Bool) → RE
  | wordB : RE
  | grp1 : RE → RE
  | grp2 : RE → RE
  | grp3 : RE → RE

/-- Character of the text at a position, if any. -/
def charAt? (t : List Char) (i : Nat) : Option Char := t.get? i

/-- Whether the character at a position exists and is a word character. -/
def isWordAt (t : List Char) (i : Nat) : Bool :=
  match charAt? t i with
  | some c => isPyWordChar c
  | none => false

/-- Python's `\b`: a word boundary sits at position `i` iff exactly one of
the characters around the gap before position `i` is a word character. -/
def wbAt (t : List Char) (i : Nat) : Bool :=
  ((i != 0) && isWordAt t (i - 1)) != isWordAt t i

/-- Length of the maximal run of characters satisfying `p` from position
`i`: the number of characters a greedy `p*` consumes. -/
def runLen (t : List Char) (p : Char → Bool) (i : Nat) : Nat :=
  ((t.drop i).takeWhile p).length

/-- All ways a regular expression can match at position `i` of `t`, as
`(end position, captures)`, listed in Python's backtracking preference
order: the head is the result Python's `re` engine reports. -/
def reMatches (t : List Char) : RE → Nat → Caps → List (Nat × Caps)
  | .eps, i, cp => [(i, cp)]
  | .cls p, i, cp =>
    match charAt? t i with
    | some c => if p c then [(i + 1, cp)] else []
    | none => []
  | .seq a b, i, cp => (reMatches t a i cp).flatMap (fun r => reMatches t b r.1 r.2)
  | .alt a b, i, cp => reMatches t a i cp ++ reMatches t b i cp
  | .starCls p, i, cp => (List.range (runLen t p i + 1)).reverse.map (fun k => (i + k, cp))
  | .wordB, i, cp => if wbAt t i then [(i, cp)] else []
  | .grp1 a, i, cp => (reMatches t a i cp).map (fun r => (r.1, { r.2 with g1 := some (i, r.1) }))
  | .grp2 a, i, cp => (reMatches t a i cp).map (fun r => (r.1, { r.2 with g2 := some (i, r.1) }))
  | .grp3 a, i, cp => (reMatches t a i cp).map (fun r => (r.1, { r.2 with g3 := some (i, r.1) }))

/-- Python `re.search` scanning from position `i`: the leftmost position
with a match wins, and there the engine's preferred match; result is
`(match start, match end, captures)`.  The recursion is on explicit fuel so
the definition reduces inside the kernel; the scan position increases by one
each step and stops at `t.length`, so a fuel of `t.length + 1 - i` (as every
caller passes) makes the fuel never run out. -/
def reSearchAux (t : List Char) (r : RE) : Nat → Nat → Option (Nat × Nat × Caps)
  | _, 0 => none
  | i, fuel + 1 =>
    match reMatches t r i {} with
    | res :: _ => some (i, res.1, res.2)
    | [] => if i < t.length then reSearchAux t r (i + 1) fuel else none

/-- Python `re.search`. -/
def reSearch (t : List Char) (r : RE) : Option (Nat × Nat × Caps) :=
  reSearchAux t r 0 (t.length + 1)

/-- Python `re.findall` scanning: non-overlapping leftmost matches; after a
match the scan resumes at its end (one further for an empty match).  The
scan position strictly increases and never exceeds `t.length`, so a fuel of
`t.length + 1` (as `reFindAll` passes) never truncates. -/
def reFindAllAux (t : List Char) (r : RE) : Nat → Nat → List (Nat × Nat × Caps)
  | _, 0 => []
  | i, fuel + 1 =>
    match reSearchAux t r i (t.length + 1 - i) with
    | none => []
    | some (s, e, cp) => (s, e, cp) :: reFindAllAux t r (if e ≤ s then s + 1 else e) fuel

/-- Python `re.findall` (all match data, before group projection). -/
def reFindAll (t : List Char) (r : RE) : List (Nat × Nat × Caps) :=
  reFindAllAux t r 0 (t.length + 1)

/-- The slice `t[s:e]` of the text. -/
def subStr (t : List Char) (s e : Nat) : List Char := (t.drop s).take (e - s)

/-- Text of a captured group; Python's `findall` renders a non-participating
group as the empty string. -/
def capStr (t : List Char) : Option (Nat × Nat) → List Char
  | some (a, b) => subStr t a b
  | none => []

/-- `re.findall` for a pattern with exactly one group (Python then returns
the list of group-1 strings). -/
def findAllG1 (t : List Char) (r : RE) : List (List Char) :=
  (reFindAll t r).map (fun m => capStr t m.2.2.g1)

/-- `re.findall` for a pattern with no groups (Python then returns the list
of full-match strings). -/
def findAllG0 (t : List Char) (r : RE) : List (List Char) :=
  (reFindAll t r).map (fun m => subStr t m.1 m.2.1)

/-- `re.findall` for a pattern with two groups (Python returns pairs). -/
def findAllG12 (t : List Char) (r : RE) : List (List Char × List Char) :=
  (reFindAll t r).map (fun m => (capStr t m.2.2.g1, capStr t m.2.2.g2))

/-- `re.findall` for a pattern with three groups (Python returns triples). -/
def findAllG123 (t : List Char) (r : RE) : List (List Char × List Char × List Char) :=
  (reFindAll t r).map (fun m => (capStr t m.2.2.g1, capStr t m.2.2.g2, capStr t m.2.2.g3))

/-- Literal character (patterns compiled without `re.IGNORECASE`). -/
def chEx (c : Char) : RE := .cls (fun x => x = c)

/-- Literal character under `re.IGNORECASE`. -/
def chCI (c : Char) : RE := .cls (fun x => x.toLower = c.toLower)

/-- Sequence of regular expressions. -/
def seqList (l : List RE) : RE := l.foldr RE.seq .eps

/-- Literal string under `re.IGNORECASE`. -/
def strCI (s : List Char) : RE := seqList (s.map chCI)

/-- Case-sensitive literal string. -/
def strEx (s : List Char) : RE := seqList (s.map chEx)

/-- Alternation tried left to right; an empty list never matches. -/
def altList (l : List RE) : RE := l.foldr RE.alt (.cls (fun _ => false))

/-- Greedy `r?`. -/
def optRE (r : RE) : RE := .alt r .eps

/-- Greedy `p+` over a character class. -/
def plusCls (p : Char → Bool) : RE := .seq (.cls p) (.starCls p)

/-- Exactly `n` characters of a class (`{n}`). -/
def repCls (p : Char → Bool) (n : Nat) : RE := seqList (List.replicate n (.cls p))

/-! ## Data model

The sections of `ExtractedData` are Python dictionaries.  In the source a
section value is in exactly one of two shapes: the fully-keyed dictionary an
extractor builds (every field key present, absent fields holding `None` or
an empty collection), or the bare `{}` that `_get_empty_extracted_data`
installs (no field keys at all).  A section is therefore embedded as an
`Option` of a record: `some` is the fully-keyed dictionary, `none` is `{}`,
and Python's `section.get(key)` is `Option.bind` into the field.  A missing
top-level section key behaves exactly like `{}` under the consumers'
`extracted_data.get(name, {})`, so `none` covers that case as well. -/

structure PartyInfo where
  name : Option (List Char)
  legal_entity : Option (List Char)
  registration_details : Option (List Char)
  signatories : List (List Char)
  roles : List (List Char)
deriving DecidableEq, Repr

/-- The `contact_info` dictionary: its two keys are only inserted when a
match is found, so key presence is an `Option`. -/
structure ContactInfo where
  email : Option (List Char)
  phone : Option (List Char)
deriving DecidableEq, Repr

structure AccountInfo where
  billing_details : Option (List Char)
  account_numbers : List (List Char)
  contact_info : ContactInfo
deriving DecidableEq, Repr

/-- Financial details; `line_items` records and the `tax_info` mapping are
never populated by the source, their element types are nominal. -/
structure FinancialDetails where
  line_items : List (List Char)
  total_value : Option ℚ
  currency : Option (List Char)
  tax_info : List (List Char × List Char)
  additional_fees : List (List Char)
deriving DecidableEq, Repr

structure PaymentStructure where
  payment_terms : Option (List Char)
  due_dates : List (List Char)
  payment_methods : List (List Char)
  banking_details : List (List Char × List Char)
deriving DecidableEq, Repr

structure RevenueClassification where
  payment_type : Option (List Char)
  billing_cycle : Option (List Char)
  renewal_terms : Option (List Char)
  auto_renewal : Option Bool
deriving DecidableEq, Repr

structure SlaInfo where
  performance_metrics : List (List Char)
  penalty_clauses : List (List Char)
  support_terms : Option (List Char)
  maintenance_terms : Option (List Char)
deriving DecidableEq, Repr

structure ExtractedData where
  party_identification : Option PartyInfo
  account_information : Option AccountInfo
  financial_details : Option FinancialDetails
  payment_structure : Option PaymentStructure
  revenue_classification : Option RevenueClassification
  service_level_agreements : Option SlaInfo
deriving DecidableEq, Repr

/-! ## Python truthiness

The scorer and the gap analyzer branch on Python truthiness of the values
`.get` returns: `None`, `0.0`, `""`, `[]` and `{}` are falsy, everything
else these dictionaries can hold is truthy. -/

/-- Truthiness of an optional string (`None` and `""` falsy). -/
def truthyStr : Option (List Char) → Bool
  | none => false
  | some s => !s.isEmpty

/-- Truthiness of an optional float (`None` and `0.0` falsy). -/
def truthyQ : Option ℚ → Bool
  | none => false
  | some q => q != 0

/-- Truthiness of a list value (`[]` falsy). -/
def truthyList (l : List α) : Bool := !l.isEmpty

/-- Truthiness of the `contact_info` dictionary (`{}` falsy, any key
present makes it truthy). -/
def truthyContact (c : ContactInfo) : Bool := c.email.isSome || c.phone.isSome

/-! ## Extractors

Each pattern below is the compilation of the corresponding pattern string in
the source; patterns compiled with `re.IGNORECASE` use `chCI`/`strCI` and a
letter class wherever the source writes `[A-Z]` (under `re.IGNORECASE` a
cased class matches both cases). -/

/-- Deduplication standing for Python's `list(set(...))`.  Python's set
iteration order is unspecified (hash based); first-seen order is one
concrete choice, and no claim below depends on the order. -/
def dedupAux (seen : List (List Char)) : List (List Char) → List (List Char)
  | [] => []
  | x :: xs => if seen.contains x then dedupAux seen xs else x :: dedupAux (x :: seen) xs

/-- Python `list(set(l))` for string lists (order unspecified in Python). -/
def dedupKeepFirst (l : List (List Char)) : List (List Char) := dedupAux [] l

/-- Class `[a-zA-Z\s]`. -/
def letterSpaceCls (c : Char) : Bool := c.isAlpha || isPySpace c

/-- The legal-entity suffix alternation `(?:Inc\.|LLC|Corp\.|Corporation|Ltd\.|Limited)`. -/
def entitySuffixRe : RE :=
  altList [strCI ("Inc.".toList), strCI ("LLC".toList), strCI ("Corp.".toList),
    strCI ("Corporation".toList), strCI ("Ltd.".toList), strCI ("Limited".toList)]

/-- Pattern `([A-Z][a-zA-Z\s]+(?:Inc\.|LLC|Corp\.|Corporation|Ltd\.|Limited))`, IGNORECASE. -/
def companyRe1 : RE :=
  .grp1 (seqList [.cls Char.isAlpha, plusCls letterSpaceCls, entitySuffixRe])

/-- Pattern `("([^"]+(?:Inc\.|LLC|Corp\.|Corporation|Ltd\.|Limited))")`, IGNORECASE. -/
def companyRe2 : RE :=
  .grp1 (seqList [chEx '"',
    .grp2 (seqList [plusCls (fun c => c ≠ '"'), entitySuffixRe]), chEx '"'])

/-- Pattern `signed by:?\s*([A-Z][a-zA-Z\s]+)`, IGNORECASE. -/
def sigRe1 : RE :=
  seqList [strCI ("signed by".toList), optRE (chEx ':'), .starCls isPySpace,
    .grp1 (seqList [.cls Char.isAlpha, plusCls letterSpaceCls])]

/-- Pattern `signature:?\s*([A-Z][a-zA-Z\s]+)`, IGNORECASE. -/
def sigRe2 : RE :=
  seqList [strCI ("signature".toList), optRE (chEx ':'), .starCls isPySpace,
    .grp1 (seqList [.cls Char.isAlpha, plusCls letterSpaceCls])]

/-- Pattern `authorized by:?\s*([A-Z][a-zA-Z\s]+)`, IGNORECASE. -/
def sigRe3 : RE :=
  seqList [strCI ("authorized by".toList), optRE (chEx ':'), .starCls isPySpace,
    .grp1 (seqList [.cls Char.isAlpha, plusCls letterSpaceCls])]

/-- `ContractParser._extract_party_info`.  `companyRe1` has one group
(`findall` yields strings), `companyRe2` has two (`findall` yields pairs and
the source keeps the first component when non-empty). -/
def extractPartyInfo (text : List Char) : PartyInfo :=
  let companies :=
    findAllG1 text companyRe1 ++
    (findAllG12 text companyRe2).map (fun m => if !m.1.isEmpty then m.1 else m.2)
  let signatories :=
    findAllG1 text sigRe1 ++ findAllG1 text sigRe2 ++ findAllG1 text sigRe3
  { name := companies.head?
    legal_entity := companies.head?
    registration_details := none
    signatories := (dedupKeepFirst signatories).take 5
    roles := [] }

/-- Class `[A-Z0-9\-]` under IGNORECASE. -/
def acctChar (c : Char) : Bool := c.isAlpha || c.isDigit || c = '-'

/-- Pattern `account\s*(?:number|#):?\s*([A-Z0-9\-]+)`, IGNORECASE. -/
def acctRe1 : RE :=
  seqList [strCI ("account".toList), .starCls isPySpace,
    altList [strCI ("number".toList), chEx '#'], optRE (chEx ':'),
    .starCls isPySpace, .grp1 (plusCls acctChar)]

/-- Pattern `customer\s*(?:id|number):?\s*([A-Z0-9\-]+)`, IGNORECASE. -/
def acctRe2 : RE :=
  seqList [strCI ("customer".toList), .starCls isPySpace,
    altList [strCI ("id".toList), strCI ("number".toList)], optRE (chEx ':'),
    .starCls isPySpace, .grp1 (plusCls acctChar)]

/-- Pattern `reference\s*(?:number|#):?\s*([A-Z0-9\-]+)`, IGNORECASE. -/
def acctRe3 : RE :=
  seqList [strCI ("reference".toList), .starCls isPySpace,
    altList [strCI ("number".toList), chEx '#'], optRE (chEx ':'),
    .starCls isPySpace, .grp1 (plusCls acctChar)]

/-- Class `[A-Za-z0-9._%+-]` of the email pattern. -/
def emailLocalCls (c : Char) : Bool :=
  c.isAlphanum || c = '.' || c = '_' || c = '%' || c = '+' || c = '-'

/-- Class `[A-Za-z0-9.-]` of the email pattern. -/
def emailDomainCls (c : Char) : Bool := c.isAlphanum || c = '.' || c = '-'

/-- Class `[A-Z|a-z]` of the email pattern (the source's class literally
contains `|`). -/
def emailTldCls (c : Char) : Bool := c.isAlpha || c = '|'

/-- Pattern `\b[A-Za-z0-9._%+-]+@[A-Za-z0-9.-]+\.[A-Z|a-z]{2,}\b` (no flag). -/
def emailRe : RE :=
  seqList [.wordB, plusCls emailLocalCls, chEx '@', plusCls emailDomainCls,
    chEx '.', repCls emailTldCls 2, .starCls emailTldCls, .wordB]

/-- Class `[-.\s]` of the phone pattern. -/
def phoneSepCls (c : Char) : Bool := c = '-' || c = '.' || isPySpace c

/-- Pattern `\b(?:\+?1[-.\s]?)?\(?([0-9]{3})\)?[-.\s]?([0-9]{3})[-.\s]?([0-9]{4})\b`. -/
def phoneRe : RE :=
  seqList [.wordB,
    optRE (seqList [optRE (chEx '+'), chEx '1', optRE (.cls phoneSepCls)]),
    optRE (chEx '('), .grp1 (repCls Char.isDigit 3), optRE (chEx ')'),
    optRE (.cls phoneSepCls), .grp2 (repCls Char.isDigit 3),
    optRE (.cls phoneSepCls), .grp3 (repCls Char.isDigit 4), .wordB]

/-- `ContractParser._extract_account_info`.  The phone tuple is rendered as
the source's f-string `(XXX) XXX-XXXX`. -/
def extractAccountInfo (text : List Char) : AccountInfo :=
  let account_numbers :=
    dedupKeepFirst (findAllG1 text acctRe1 ++ findAllG1 text acctRe2 ++ findAllG1 text acctRe3)
  let emails := findAllG0 text emailRe
  let phones := findAllG123 text phoneRe
  { billing_details := none
    account_numbers := account_numbers
    contact_info :=
      { email := emails.head?
        phone := phones.head?.map
          (fun p => ('(' :: p.1) ++ (')' :: ' ' :: p.2.1) ++ ('-' :: p.2.2)) } }

/-- Class `[0-9,]` of the money patterns. -/
def digitCommaCls (c : Char) : Bool := c.isDigit || c = ','

/-- The amount group body `[0-9,]+\.?[0-9]*` shared by the money patterns. -/
def amountRe : RE :=
  seqList [plusCls digitCommaCls, optRE (chEx '.'), .starCls Char.isDigit]

/-- Pattern `\$\s*([0-9,]+\.?[0-9]*)`. -/
def moneyRe1 : RE := seqList [chEx '$', .starCls isPySpace, .grp1 amountRe]

/-- Pattern `([0-9,]+\.?[0-9]*)\s*(?:dollars?|usd)`, IGNORECASE. -/
def moneyRe2 : RE :=
  seqList [.grp1 amountRe, .starCls isPySpace,
    altList [seqList [strCI ("dollar".toList), optRE (chCI 's')], strCI ("usd".toList)]]

/-- Pattern `total:?\s*\$?\s*([0-9,]+\.?[0-9]*)`, IGNORECASE. -/
def moneyRe3 : RE :=
  seqList [strCI ("total".toList), optRE (chEx ':'), .starCls isPySpace,
    optRE (chEx '$'), .starCls isPySpace, .grp1 amountRe]

/-- Pattern `amount:?\s*\$?\s*([0-9,]+\.?[0-9]*)`, IGNORECASE. -/
def moneyRe4 : RE :=
  seqList [strCI ("amount".toList), optRE (chEx ':'), .starCls isPySpace,
    optRE (chEx '$'), .starCls isPySpace, .grp1 amountRe]

/-- Value of a digit string as a natural number. -/
def digitsToNat (s : List Char) : Nat :=
  s.foldl (fun acc c => 10 * acc + (c.toNat - '0'.toNat)) 0

/-- Python `float(...)` on the comma-free strings the amount group can
produce: digits, an optional dot, optional further digits, with at least one
digit overall (otherwise `ValueError`, here `none`).  The value is the exact
rational the decimal literal denotes; the source stores it in a float, and
every use the claims touch (comparison by `max`, truthiness against zero)
agrees with the exact value on these literals. -/
def pyFloat (s : List Char) : Option ℚ :=
  let ip := s.takeWhile Char.isDigit
  let rest := s.drop ip.length
  match rest with
  | [] => if ip.isEmpty then none else some ((digitsToNat ip : Nat) : ℚ)
  | '.' :: fr =>
    if fr.all Char.isDigit && !(ip.isEmpty && fr.isEmpty) then
      some (((digitsToNat ip : Nat) : ℚ) + ((digitsToNat fr : Nat) : ℚ) / (10 : ℚ) ^ fr.length)
    else none
  | _ => none

/-- The amounts loop of `_extract_financial_details`: every group matched by
any of the four money patterns, in pattern order, parsed after
`.replace(',', '')`, parse failures (`ValueError`) skipped. -/
def moneyAmounts (text : List Char) : List ℚ :=
  ([moneyRe1, moneyRe2, moneyRe3, moneyRe4].flatMap (fun r => findAllG1 text r)).filterMap
    (fun m => pyFloat (m.filter (fun c => c ≠ ',')))

/-- Pattern `\b(USD|EUR|GBP|CAD|AUD)\b`, IGNORECASE. -/
def currencyRe : RE :=
  seqList [.wordB,
    .grp1 (altList [strCI ("USD".toList), strCI ("EUR".toList), strCI ("GBP".toList),
      strCI ("CAD".toList), strCI ("AUD".toList)]), .wordB]

/-- Python `str.upper()` (ASCII content here). -/
def upperStr (s : List Char) : List Char := s.map Char.toUpper

/-- Python `max` on a float list, `None` when the list is empty (mirrors the
source's `if amounts: ... = max(amounts)` over an initial `None`). -/
def pyMaxQ : List ℚ → Option ℚ
  | [] => none
  | x :: xs => some (xs.foldl max x)

/-- `ContractParser._extract_financial_details`. -/
def extractFinancialDetails (text : List Char) : FinancialDetails :=
  { line_items := []
    total_value := pyMaxQ (moneyAmounts text)
    currency := some (match reSearch text currencyRe with
      | some m => upperStr (capStr text m.2.2.g1)
      | none => ("USD".toList))
    tax_info := []
    additional_fees := [] }

/-- Pattern `net\s*(\d+)`, IGNORECASE. -/
def netRe : RE :=
  seqList [strCI ("net".toList), .starCls isPySpace, .grp1 (plusCls Char.isDigit)]

/-- Class `[^.\n]`. -/
def notDotNlCls (c : Char) : Bool := !(c = '.' || c = '\n')

/-- Pattern `payment\s*terms?:?\s*([^.\n]+)`, IGNORECASE. -/
def payTermsRe : RE :=
  seqList [strCI ("payment".toList), .starCls isPySpace, strCI ("term".toList),
    optRE (chCI 's'), optRE (chEx ':'), .starCls isPySpace, .grp1 (plusCls notDotNlCls)]

/-- Pattern `due\s*(?:in|within):?\s*(\d+\s*days?)`, IGNORECASE. -/
def dueRe : RE :=
  seqList [strCI ("due".toList), .starCls isPySpace,
    altList [strCI ("in".toList), strCI ("within".toList)], optRE (chEx ':'),
    .starCls isPySpace,
    .grp1 (seqList [plusCls Char.isDigit, .starCls isPySpace, strCI ("day".toList),
      optRE (chCI 's')])]

/-- The payment-terms loop of `_extract_payment_structure`: the patterns are
searched in list order and the first one that matches anywhere sets
`payment_terms` to its full match (`match.group(0)`), then the loop breaks. -/
def firstSearchFull (text : List Char) : List RE → Option (List Char)
  | [] => none
  | r :: rs =>
    match reSearch text r with
    | some m => some (subStr text m.1 m.2.1)
    | none => firstSearchFull text rs

/-- Pattern
`(?:payment\s*(?:by|via|through):?\s*)?(?:check|cheque|wire\s*transfer|ach|credit\s*card|bank\s*transfer)`,
IGNORECASE (no group, so `findall` yields full matches). -/
def methodsRe : RE :=
  .seq
    (optRE (seqList [strCI ("payment".toList), .starCls isPySpace,
      altList [strCI ("by".toList), strCI ("via".toList), strCI ("through".toList)],
      optRE (chEx ':'), .starCls isPySpace]))
    (altList [strCI ("check".toList), strCI ("cheque".toList),
      seqList [strCI ("wire".toList), .starCls isPySpace, strCI ("transfer".toList)],
      strCI ("ach".toList),
      seqList [strCI ("credit".toList), .starCls isPySpace, strCI ("card".toList)],
      seqList [strCI ("bank".toList), .starCls isPySpace, strCI ("transfer".toList)]])

/-- `ContractParser._extract_payment_structure`. -/
def extractPaymentStructure (text : List Char) : PaymentStructure :=
  { payment_terms := firstSearchFull text [netRe, payTermsRe, dueRe]
    due_dates := []
    payment_methods := dedupKeepFirst (findAllG0 text methodsRe)
    banking_details := [] }

/-- Whether `needle` is a prefix of `hay` (Python string comparison). -/
def startsWithList : List Char → List Char → Bool
  | [], _ => true
  | _ :: _, [] => false
  | a :: as, b :: bs => a = b && startsWithList as bs

/-- Python's substring test `needle in hay`. -/
def containsSub (needle : List Char) : List Char → Bool
  | [] => startsWithList needle []
  | c :: rest => startsWithList needle (c :: rest) || containsSub needle rest

/-- Python `str.lower()` (ASCII content here). -/
def lowerStr (s : List Char) : List Char := s.map Char.toLower

/-- The `recurring_keywords` list of `_extract_revenue_classification`. -/
def recurringKeywords : List (List Char) :=
  [("monthly".toList), ("quarterly".toList), ("annually".toList),
   ("subscription".toList), ("recurring".toList)]

/-- The `one_time_keywords` list of `_extract_revenue_classification`. -/
def oneTimeKeywords : List (List Char) :=
  [("one-time".toList), ("lump sum".toList), ("upfront".toList), ("single payment".toList)]

/-- The `auto_renewal_keywords` list of `_extract_revenue_classification`. -/
def autoRenewalKeywords : List (List Char) :=
  [("auto-renew".toList), ("automatically renew".toList), ("auto renewal".toList)]

/-- Pattern `\b(monthly|quarterly|annually|yearly|weekly)\b`, IGNORECASE. -/
def billingCycleRe : RE :=
  seqList [.wordB,
    .grp1 (altList [strCI ("monthly".toList), strCI ("quarterly".toList),
      strCI ("annually".toList), strCI ("yearly".toList), strCI ("weekly".toList)]),
    .wordB]

/-- `ContractParser._extract_revenue_classification`. -/
def extractRevenueClassification (text : List Char) : RevenueClassification :=
  let textLower := lowerStr text
  let hasRecurring := recurringKeywords.any (fun k => containsSub k textLower)
  let hasOneTime := oneTimeKeywords.any (fun k => containsSub k textLower)
  { payment_type :=
      if hasRecurring && hasOneTime then some ("both".toList)
      else if hasRecurring then some ("recurring".toList)
      else if hasOneTime then some ("one-time".toList)
      else none
    billing_cycle := (reSearch text billingCycleRe).map (fun m => lowerStr (capStr text m.2.2.g1))
    renewal_terms := none
    auto_renewal := some (autoRenewalKeywords.any (fun k => containsSub k textLower)) }

/-- Pattern `(\d+%?\s*uptime)`, IGNORECASE. -/
def perfRe1 : RE :=
  .grp1 (seqList [plusCls Char.isDigit, optRE (chEx '%'), .starCls isPySpace,
    strCI ("uptime".toList)])

/-- Pattern `(\d+\s*(?:hours?|minutes?|seconds?)\s*response\s*time)`, IGNORECASE. -/
def perfRe2 : RE :=
  .grp1 (seqList [plusCls Char.isDigit, .starCls isPySpace,
    altList [seqList [strCI ("hour".toList), optRE (chCI 's')],
      seqList [strCI ("minute".toList), optRE (chCI 's')],
      seqList [strCI ("second".toList), optRE (chCI 's')]],
    .starCls isPySpace, strCI ("response".toList), .starCls isPySpace,
    strCI ("time".toList)])

/-- Pattern `(availability:?\s*\d+%?)`, IGNORECASE. -/
def perfRe3 : RE :=
  .grp1 (seqList [strCI ("availability".toList), optRE (chEx ':'), .starCls isPySpace,
    plusCls Char.isDigit, optRE (chEx '%')])

/-- Pattern `(penalty:?\s*[^.\n]+)`, IGNORECASE. -/
def penRe1 : RE :=
  .grp1 (seqList [strCI ("penalty".toList), optRE (chEx ':'), .starCls isPySpace,
    plusCls notDotNlCls])

/-- Pattern `(liquidated\s*damages:?\s*[^.\n]+)`, IGNORECASE. -/
def penRe2 : RE :=
  .grp1 (seqList [strCI ("liquidated".toList), .starCls isPySpace,
    strCI ("damages".toList), optRE (chEx ':'), .starCls isPySpace, plusCls notDotNlCls])

/-- Pattern `(service\s*credits?:?\s*[^.\n]+)`, IGNORECASE. -/
def penRe3 : RE :=
  .grp1 (seqList [strCI ("service".toList), .starCls isPySpace, strCI ("credit".toList),
    optRE (chCI 's'), optRE (chEx ':'), .starCls isPySpace, plusCls notDotNlCls])

/-- `ContractParser._extract_sla_info`. -/
def extractSlaInfo (text : List Char) : SlaInfo :=
  { performance_metrics :=
      findAllG1 text perfRe1 ++ findAllG1 text perfRe2 ++ findAllG1 text perfRe3
    penalty_clauses :=
      findAllG1 text penRe1 ++ findAllG1 text penRe2 ++ findAllG1 text penRe3
    support_terms := none
    maintenance_terms := none }

/-! ## Text normalization -/

/-- The run-collapsing core of `re.sub(r'\s+', ' ', text)`: the flag records
whether the scan is inside a whitespace run whose single replacement space
has already been emitted. -/
def subWsAux : Bool → List Char → List Char
  | _, [] => []
  | inRun, c :: rest =>
    if isPySpace c then
      if inRun then subWsAux true rest else ' ' :: subWsAux true rest
    else c :: subWsAux false rest

/-- Python `re.sub(r'\s+', ' ', text)`: each maximal whitespace run becomes
one space. -/
def subWsRuns (text : List Char) : List Char := subWsAux false text

/-- Python `str.strip()` from the left. -/
def lstripWs (text : List Char) : List Char := text.dropWhile isPySpace

/-- Python `str.strip()` from the right. -/
def rstripWs (text : List Char) : List Char := (text.reverse.dropWhile isPySpace).reverse

/-- `ContractParser._clean_text`: `re.sub(r'\s+', ' ', text)` then `.strip()`. -/
def cleanText (text : List Char) : List Char := rstripWs (lstripWs (subWsRuns text))

/-! ## parse_contract -/

/-- The body of `parse_contract`'s `try` block: normalize, then the six
extractors over the same cleaned text. -/
def parseContractBody (text_content : List Char) : ExtractedData :=
  let cleaned := cleanText text_content
  { party_identification := some (extractPartyInfo cleaned)
    account_information := some (extractAccountInfo cleaned)
    financial_details := some (extractFinancialDetails cleaned)
    payment_structure := some (extractPaymentStructure cleaned)
    revenue_classification := some (extractRevenueClassification cleaned)
    service_level_agreements := some (extractSlaInfo cleaned) }

/-- `ContractParser._get_empty_extracted_data`: the six section keys, each
mapped to the bare `{}` (no field keys). -/
def getEmptyExtractedData : ExtractedData :=
  { party_identification := none
    account_information := none
    financial_details := none
    payment_structure := none
    revenue_classification := none
    service_level_agreements := none }

/-- `parse_contract`'s `try/except Exception` shell over an arbitrary body:
the embedded extractors are total, so a possible `ExtractionFault` raised
inside the `try` block is modelled by abstracting the body as a fallible
computation. -/
def parseContractWith (body : List Char → Except (List Char) ExtractedData)
    (text_content : List Char) : ExtractedData :=
  match body text_content with
  | .ok d => d
  | .error _ => getEmptyExtractedData

/-- `ContractParser.parse_contract` with the extractors as written (they do
not raise in this embedding). -/
def parseContract (text_content : List Char) : ExtractedData :=
  parseContractWith (fun s => .ok (parseContractBody s)) text_content

/-! ## Confidence scorer -/

/-- Truthiness of `section.get(key)` for an optional-string field of a
possibly-`{}` section. -/
def getStrT (o : Option α) (f : α → Option (List Char)) : Bool := truthyStr (o.bind f)

/-- Truthiness of `section.get(key)` for an optional-float field. -/
def getQT (o : Option α) (f : α → Option ℚ) : Bool := truthyQ (o.bind f)

/-- Truthiness of `section.get(key)` for a collection field (`None` from a
bare `{}` and `[]`/`{}` from a populated section are all falsy). -/
def getListT (o : Option α) (f : α → List β) : Bool :=
  match o with
  | none => false
  | some a => truthyList (f a)

/-- The `contact_info` value the scorer reads:
`account.get("contact_info", {}) if account else {}`. -/
def contactOf (d : ExtractedData) : ContactInfo :=
  match d.account_information with
  | some a => a.contact_info
  | none => { email := none, phone := none }

/-- The six named scores; the source keeps them in floats that only ever
hold the whole-number point totals below, embedded exactly as naturals. -/
structure ConfidenceScores where
  financial_completeness : Nat
  party_identification : Nat
  payment_terms_clarity : Nat
  sla_definition : Nat
  contact_information : Nat
  overall_score : Nat
deriving DecidableEq, Repr

/-- `ContractParser.calculate_confidence_scores`. -/
def calculateConfidenceScores (d : ExtractedData) : ConfidenceScores :=
  let fin : Nat :=
    (if getQT d.financial_details FinancialDetails.total_value then 15 else 0) +
    (if getStrT d.financial_details FinancialDetails.currency then 5 else 0) +
    (if getListT d.financial_details FinancialDetails.line_items then 10 else 0)
  let party : Nat :=
    (if getStrT d.party_identification PartyInfo.name then 10 else 0) +
    (if getStrT d.party_identification PartyInfo.legal_entity then 8 else 0) +
    (if getListT d.party_identification PartyInfo.signatories then 7 else 0)
  let pay : Nat :=
    (if getStrT d.payment_structure PaymentStructure.payment_terms then 10 else 0) +
    (if getListT d.payment_structure PaymentStructure.payment_methods then 5 else 0) +
    (if getListT d.payment_structure PaymentStructure.due_dates then 5 else 0)
  let sla : Nat :=
    (if getListT d.service_level_agreements SlaInfo.performance_metrics then 8 else 0) +
    (if getListT d.service_level_agreements SlaInfo.penalty_clauses then 4 else 0) +
    (if getStrT d.service_level_agreements SlaInfo.support_terms then 3 else 0)
  let contact : Nat :=
    (if truthyStr (contactOf d).email then 5 else 0) +
    (if truthyStr (contactOf d).phone then 3 else 0) +
    (if d.account_information.isSome &&
        getListT d.account_information AccountInfo.account_numbers then 2 else 0)
  { financial_completeness := fin
    party_identification := party
    payment_terms_clarity := pay
    sla_definition := sla
    contact_information := contact
    -- the source sets overall to `sum(scores.values()) - scores["overall_score"]`
    -- while overall is still 0.0, i.e. exactly the sum of the five sub-scores
    overall_score := fin + party + pay + sla + contact }

/-! ## Gap analyzer -/

/-- Recommendation string of rule (a) of `perform_gap_analysis`. -/
def recDocString : List Char :=
  ("Request additional contract documentation to fill missing fields".toList)

/-- Recommendation string of rule (b). -/
def recManualString : List Char :=
  ("Consider manual review due to significant missing information".toList)

/-- Recommendation string of rule (c). -/
def recVerifyString : List Char :=
  ("Verify contract value with client before processing payments".toList)

structure GapAnalysis where
  missing_fields : List (List Char)
  incomplete_sections : List (List Char)
  recommendations : List (List Char)
deriving DecidableEq, Repr

/-- `ContractParser.perform_gap_analysis`; the appends run in source order,
rendered as concatenation of singleton-or-empty blocks. -/
def performGapAnalysis (d : ExtractedData) : GapAnalysis :=
  let missing_fields :=
    (if getQT d.financial_details FinancialDetails.total_value then []
      else [("Total contract value".toList)]) ++
    (if getListT d.financial_details FinancialDetails.line_items then []
      else [("Detailed line items".toList)]) ++
    (if getStrT d.party_identification PartyInfo.name then []
      else [("Party names".toList)]) ++
    (if getListT d.party_identification PartyInfo.signatories then []
      else [("Authorized signatories".toList)]) ++
    (if getStrT d.payment_structure PaymentStructure.payment_terms then []
      else [("Payment terms".toList)]) ++
    (if getListT d.payment_structure PaymentStructure.payment_methods then []
      else [("Payment methods".toList)]) ++
    (if getListT d.service_level_agreements SlaInfo.performance_metrics then []
      else [("Performance metrics".toList)]) ++
    (if d.account_information.isSome && truthyContact (contactOf d) then []
      else [("Contact information".toList)])
  let incomplete_sections :=
    if getListT d.financial_details FinancialDetails.tax_info then []
    else [("Tax information".toList)]
  let recommendations :=
    (if missing_fields.isEmpty then [] else [recDocString]) ++
    (if 5 < missing_fields.length then [recManualString] else []) ++
    (if getQT d.financial_details FinancialDetails.total_value then [] else [recVerifyString])
  { missing_fields := missing_fields
    incomplete_sections := incomplete_sections
    recommendations := recommendations }

/-! ## Claims about the scorer and the gap analyzer -/


/-- The financial sub-score never exceeds its 30-point maximum. -/
lemma financial_score_le (d : ExtractedData) :
    (calculateConfidenceScores d).financial_completeness ≤ 30 := by
  unfold calculateConfidenceScores
  dsimp only
  split_ifs <;> omega

/-- The party sub-score never exceeds its 25-point maximum. -/
lemma party_score_le (d : ExtractedData) :
    (calculateConfidenceScores d).party_identification ≤ 25 := by
  unfold calculateConfidenceScores
  dsimp only
  split_ifs <;> omega

/-- The payment sub-score never exceeds its 20-point maximum. -/
lemma payment_score_le (d : ExtractedData) :
    (calculateConfidenceScores d).payment_terms_clarity ≤ 20 := by
  unfold calculateConfidenceScores
  dsimp only
  split_ifs <;> omega

/-- The SLA sub-score never exceeds its 15-point maximum. -/
lemma sla_score_le (d : ExtractedData) :
    (calculateConfidenceScores d).sla_definition ≤ 15 := by
  unfold calculateConfidenceScores
  dsimp only
  split_ifs <;> omega

/-- The contact sub-score never exceeds its 10-point maximum. -/
lemma contact_score_le (d : ExtractedData) :
    (calculateConfidenceScores d).contact_information ≤ 10 := by
  unfold calculateConfidenceScores
  dsimp only
  split_ifs <;> omega

/-- The overall score is by construction the sum of the five sub-scores. -/
lemma overall_score_eq (d : ExtractedData) :
    (calculateConfidenceScores d).overall_score =
      (calculateConfidenceScores d).financial_completeness +
      (calculateConfidenceScores d).party_identification +
      (calculateConfidenceScores d).payment_terms_clarity +
      (calculateConfidenceScores d).sla_definition +
      (calculateConfidenceScores d).contact_information := rfl

/-- Claim C3: for every `ExtractedData` (bare `{}` and hence absent-behaving
sections included — the scorer is total on all of them), each sub-score lies
within `[0, max]` for the fixed maxima financial 30, party 25, payment 20,
sla 15, contact 10, and `overall_score` is exactly the sum of the five
sub-scores, hence at most 100.  Scores are embedded as naturals (the source's
floats only ever hold these whole-number totals), so the lower bounds also
hold by construction. -/
theorem c3_score_bounds_and_sum (d : ExtractedData) :
    (0 ≤ (calculateConfidenceScores d).financial_completeness ∧
      (calculateConfidenceScores d).financial_completeness ≤ 30) ∧
    (0 ≤ (calculateConfidenceScores d).party_identification ∧
      (calculateConfidenceScores d).party_identification ≤ 25) ∧
    (0 ≤ (calculateConfidenceScores d).payment_terms_clarity ∧
      (calculateConfidenceScores d).payment_terms_clarity ≤ 20) ∧
    (0 ≤ (calculateConfidenceScores d).sla_definition ∧
      (calculateConfidenceScores d).sla_definition ≤ 15) ∧
    (0 ≤ (calculateConfidenceScores d).contact_information ∧
      (calculateConfidenceScores d).contact_information ≤ 10) ∧
    (calculateConfidenceScores d).overall_score =
      (calculateConfidenceScores d).financial_completeness +
      (calculateConfidenceScores d).party_identification +
      (calculateConfidenceScores d).payment_terms_clarity +
      (calculateConfidenceScores d).sla_definition +
      (calculateConfidenceScores d).contact_information ∧
    (calculateConfidenceScores d).overall_score ≤ 100 := by
  have h1 := financial_score_le d
  have h2 := party_score_le d
  have h3 := payment_score_le d
  have h4 := sla_score_le d
  have h5 := contact_score_le d
  have h6 := overall_score_eq d
  exact ⟨⟨Nat.zero_le _, h1⟩, ⟨Nat.zero_le _, h2⟩, ⟨Nat.zero_le _, h3⟩,
    ⟨Nat.zero_le _, h4⟩, ⟨Nat.zero_le _, h5⟩, h6, by omega⟩

/-- Claim C9: the recommendations of `perform_gap_analysis` are exactly the
three rules (a) generic documentation request when `missing_fields` is
non-empty, (b) manual review when more than five fields are missing,
(c) payment verification when `total_value` is absent (falsy, per the
source's truthiness test, matching the spec's presence convention), applied
in that fixed order, so the list has between 0 and 3 entries. -/
theorem c9_recommendation_rules (d : ExtractedData) :
    (performGapAnalysis d).recommendations =
      (if (performGapAnalysis d).missing_fields.isEmpty then [] else [recDocString]) ++
      (if 5 < (performGapAnalysis d).missing_fields.length then [recManualString] else []) ++
      (if getQT d.financial_details FinancialDetails.total_value then [] else [recVerifyString]) ∧
    (performGapAnalysis d).recommendations.length ≤ 3 := by
  refine ⟨rfl, ?_⟩
  have h : (performGapAnalysis d).recommendations =
      (if (performGapAnalysis d).missing_fields.isEmpty then [] else [recDocString]) ++
      (if 5 < (performGapAnalysis d).missing_fields.length then [recManualString] else []) ++
      (if getQT d.financial_details FinancialDetails.total_value then [] else [recVerifyString]) := rfl
  rw [h]
  split_ifs <;> simp

/-- Claim C10: no extractor ever populates `tax_info` (the financial
extractor pins it to the empty mapping for every input), so the gap analysis
of any `parse_contract` output — the embedded extractors are total, so every
run is a successful one — reports `incomplete_sections` as exactly
`["Tax information"]`. -/
theorem c10_tax_info_always_incomplete (t : List Char) :
    (extractFinancialDetails t).tax_info = [] ∧
    (performGapAnalysis (parseContract t)).incomplete_sections = [("Tax information".toList)] := by
  exact ⟨rfl, rfl⟩

/-- The missing-fields list of the gap analysis, spelled out. -/
lemma missing_fields_eq (d : ExtractedData) :
    (performGapAnalysis d).missing_fields =
      (if getQT d.financial_details FinancialDetails.total_value then []
        else [("Total contract value".toList)]) ++
      (if getListT d.financial_details FinancialDetails.line_items then []
        else [("Detailed line items".toList)]) ++
      (if getStrT d.party_identification PartyInfo.name then []
        else [("Party names".toList)]) ++
      (if getListT d.party_identification PartyInfo.signatories then []
        else [("Authorized signatories".toList)]) ++
      (if getStrT d.payment_structure PaymentStructure.payment_terms then []
        else [("Payment terms".toList)]) ++
      (if getListT d.payment_structure PaymentStructure.payment_methods then []
        else [("Payment methods".toList)]) ++
      (if getListT d.service_level_agreements SlaInfo.performance_metrics then []
        else [("Performance metrics".toList)]) ++
      (if d.account_information.isSome && truthyContact (contactOf d) then []
        else [("Contact information".toList)]) := rfl

/-- A label distinct from a block's label is never contributed by that block. -/
lemma not_mem_other_block {a b : List Char} (hab : a ≠ b) (c : Prop) [Decidable c] :
    a ∉ (if c then ([] : List (List Char)) else [b]) := by
  split <;> simp [hab]

/-- A truthy email implies the gap analyzer's contact check passes. -/
lemma contact_check_of_email {d : ExtractedData}
    (h : truthyStr (contactOf d).email = true) :
    (d.account_information.isSome && truthyContact (contactOf d)) = true := by
  cases ha : d.account_information with
  | none => rw [contactOf, ha] at h; simp [truthyStr] at h
  | some a =>
    rw [contactOf, ha] at h ⊢
    cases he : a.contact_info.email with
    | none => rw [he] at h; simp [truthyStr] at h
    | some s => simp [ha, truthyContact, he]

/-- A truthy phone implies the gap analyzer's contact check passes. -/
lemma contact_check_of_phone {d : ExtractedData}
    (h : truthyStr (contactOf d).phone = true) :
    (d.account_information.isSome && truthyContact (contactOf d)) = true := by
  cases ha : d.account_information with
  | none => rw [contactOf, ha] at h; simp [truthyStr] at h
  | some a =>
    rw [contactOf, ha] at h ⊢
    cases he : a.contact_info.phone with
    | none => rw [he] at h; simp [truthyStr] at h
    | some s => simp [ha, truthyContact, he]

/-- Claim C7: every field whose presence earns points in
`calculate_confidence_scores` is, when truthy, absent from `missing_fields`
of `perform_gap_analysis` on the same data (the email and phone checks both
correspond to the single "Contact information" label; the `currency`,
`legal_entity`, `due_dates`, `penalty_clauses`, `support_terms` and
`account_numbers` checks have no corresponding label, so their instances of
the claim hold vacuously). -/
theorem c7_scores_vs_missing_fields (d : ExtractedData) :
    (getQT d.financial_details FinancialDetails.total_value = true →
      ("Total contract value".toList) ∉ (performGapAnalysis d).missing_fields) ∧
    (getListT d.financial_details FinancialDetails.line_items = true →
      ("Detailed line items".toList) ∉ (performGapAnalysis d).missing_fields) ∧
    (getStrT d.party_identification PartyInfo.name = true →
      ("Party names".toList) ∉ (performGapAnalysis d).missing_fields) ∧
    (getListT d.party_identification PartyInfo.signatories = true →
      ("Authorized signatories".toList) ∉ (performGapAnalysis d).missing_fields) ∧
    (getStrT d.payment_structure PaymentStructure.payment_terms = true →
      ("Payment terms".toList) ∉ (performGapAnalysis d).missing_fields) ∧
    (getListT d.payment_structure PaymentStructure.payment_methods = true →
      ("Payment methods".toList) ∉ (performGapAnalysis d).missing_fields) ∧
    (getListT d.service_level_agreements SlaInfo.performance_metrics = true →
      ("Performance metrics".toList) ∉ (performGapAnalysis d).missing_fields) ∧
    (truthyStr (contactOf d).email = true →
      ("Contact information".toList) ∉ (performGapAnalysis d).missing_fields) ∧
    (truthyStr (contactOf d).phone = true →
      ("Contact information".toList) ∉ (performGapAnalysis d).missing_fields) := by
  refine ⟨?_, ?_, ?_, ?_, ?_, ?_, ?_, ?_, ?_⟩ <;> intro h <;> rw [missing_fields_eq] <;>
    simp only [List.mem_append, not_or, and_assoc] <;>
    refine ⟨?_, ?_, ?_, ?_, ?_, ?_, ?_, ?_⟩ <;>
    first
      | (apply not_mem_other_block ; decide)
      | (simp [(Bool.and_eq_true _ _).mp (contact_check_of_email h)] ; done)
      | (simp [(Bool.and_eq_true _ _).mp (contact_check_of_phone h)] ; done)
      | (simp [h] ; done)

/-- A fully-populated `ExtractedData` used to instantiate universally
quantified claim theorems at a concrete input. -/
def dataAllPresent : ExtractedData :=
  { party_identification := some
      { name := some ("Acme Inc.".toList)
        legal_entity := some ("Acme Inc.".toList)
        registration_details := none
        signatories := [("John Smith".toList)]
        roles := [] }
    account_information := some
      { billing_details := none
        account_numbers := [("ACC-12345".toList)]
        contact_info :=
          { email := some ("john.doe@abccorp.com".toList)
            phone := some ("(555) 123-4567".toList) } }
    financial_details := some
      { line_items := [("item".toList)]
        total_value := some 50000
        currency := some ("USD".toList)
        tax_info := []
        additional_fees := [] }
    payment_structure := some
      { payment_terms := some ("net 30".toList)
        due_dates := []
        payment_methods := [("check".toList)]
        banking_details := [] }
    revenue_classification := some
      { payment_type := some ("recurring".toList)
        billing_cycle := some ("monthly".toList)
        renewal_terms := none
        auto_renewal := some false }
    service_level_agreements := some
      { performance_metrics := [("99.9% uptime".toList)]
        penalty_clauses := []
        support_terms := none
        maintenance_terms := none } }

/-- Witness for claim C7 at a concrete fully-populated record: every
implication of `c7_scores_vs_missing_fields` fires with its hypothesis
discharged by evaluation. -/
theorem c7_scores_vs_missing_fields_witness :
    ("Total contract value".toList) ∉ (performGapAnalysis dataAllPresent).missing_fields ∧
    ("Detailed line items".toList) ∉ (performGapAnalysis dataAllPresent).missing_fields ∧
    ("Party names".toList) ∉ (performGapAnalysis dataAllPresent).missing_fields ∧
    ("Authorized signatories".toList) ∉ (performGapAnalysis dataAllPresent).missing_fields ∧
    ("Payment terms".toList) ∉ (performGapAnalysis dataAllPresent).missing_fields ∧
    ("Payment methods".toList) ∉ (performGapAnalysis dataAllPresent).missing_fields ∧
    ("Performance metrics".toList) ∉ (performGapAnalysis dataAllPresent).missing_fields ∧
    ("Contact information".toList) ∉ (performGapAnalysis dataAllPresent).missing_fields :=
  ⟨(c7_scores_vs_missing_fields dataAllPresent).1 (by decide),
   (c7_scores_vs_missing_fields dataAllPresent).2.1 (by decide),
   (c7_scores_vs_missing_fields dataAllPresent).2.2.1 (by decide),
   (c7_scores_vs_missing_fields dataAllPresent).2.2.2.1 (by decide),
   (c7_scores_vs_missing_fields dataAllPresent).2.2.2.2.1 (by decide),
   (c7_scores_vs_missing_fields dataAllPresent).2.2.2.2.2.1 (by decide),
   (c7_scores_vs_missing_fields dataAllPresent).2.2.2.2.2.2.1 (by decide),
   (c7_scores_vs_missing_fields dataAllPresent).2.2.2.2.2.2.2.1 (by decide)⟩

/-! ## Claim C8: monotonicity of the scorer -/

/-- A populated section with every field still absent (all keys present,
values `None`/empty): what materializes around a single field newly written
into a bare `{}` section.  Writing one key into `{}` leaves the other keys
absent in Python; under `.get` an absent key and a `None`/empty value are
indistinguishable, which is all the scorer and gap analyzer observe. -/
def emptyPartyInfo : PartyInfo :=
  { name := none, legal_entity := none, registration_details := none,
    signatories := [], roles := [] }

/-- Empty account section (see `emptyPartyInfo`). -/
def emptyAccountInfo : AccountInfo :=
  { billing_details := none, account_numbers := [],
    contact_info := { email := none, phone := none } }

/-- Empty financial section (see `emptyPartyInfo`). -/
def emptyFinancialDetails : FinancialDetails :=
  { line_items := [], total_value := none, currency := none,
    tax_info := [], additional_fees := [] }

/-- Empty payment section (see `emptyPartyInfo`). -/
def emptyPaymentStructure : PaymentStructure :=
  { payment_terms := none, due_dates := [], payment_methods := [],
    banking_details := [] }

/-- Empty SLA section (see `emptyPartyInfo`). -/
def emptySlaInfo : SlaInfo :=
  { performance_metrics := [], penalty_clauses := [],
    support_terms := none, maintenance_terms := none }

/-- The fifteen fields whose truthiness earns points in
`calculate_confidence_scores`, each constructor carrying the new value the
field is updated to. -/
inductive QualField where
  | totalValue : ℚ → QualField
  | currencyF : List Char → QualField
  | lineItems : List (List Char) → QualField
  | partyName : List Char → QualField
  | legalEntity : List Char → QualField
  | signatoriesF : List (List Char) → QualField
  | paymentTermsF : List Char → QualField
  | paymentMethodsF : List (List Char) → QualField
  | dueDatesF : List (List Char) → QualField
  | perfMetrics : List (List Char) → QualField
  | penaltyClausesF : List (List Char) → QualField
  | supportTermsF : List Char → QualField
  | emailF : List Char → QualField
  | phoneF : List Char → QualField
  | accountNumbersF : List (List Char) → QualField

/-- Write one qualifying field of `d`, materializing its section when it was
the bare `{}`. -/
def applyQualField : QualField → ExtractedData → ExtractedData
  | .totalValue v, d =>
    let f := d.financial_details.getD emptyFinancialDetails
    { d with financial_details := some { f with total_value := some v } }
  | .currencyF s, d =>
    let f := d.financial_details.getD emptyFinancialDetails
    { d with financial_details := some { f with currency := some s } }
  | .lineItems l, d =>
    let f := d.financial_details.getD emptyFinancialDetails
    { d with financial_details := some { f with line_items := l } }
  | .partyName s, d =>
    let p := d.party_identification.getD emptyPartyInfo
    { d with party_identification := some { p with name := some s } }
  | .legalEntity s, d =>
    let p := d.party_identification.getD emptyPartyInfo
    { d with party_identification := some { p with legal_entity := some s } }
  | .signatoriesF l, d =>
    let p := d.party_identification.getD emptyPartyInfo
    { d with party_identification := some { p with signatories := l } }
  | .paymentTermsF s, d =>
    let p := d.payment_structure.getD emptyPaymentStructure
    { d with payment_structure := some { p with payment_terms := some s } }
  | .paymentMethodsF l, d =>
    let p := d.payment_structure.getD emptyPaymentStructure
    { d with payment_structure := some { p with payment_methods := l } }
  | .dueDatesF l, d =>
    let p := d.payment_structure.getD emptyPaymentStructure
    { d with payment_structure := some { p with due_dates := l } }
  | .perfMetrics l, d =>
    let s0 := d.service_level_agreements.getD emptySlaInfo
    { d with service_level_agreements := some { s0 with performance_metrics := l } }
  | .penaltyClausesF l, d =>
    let s0 := d.service_level_agreements.getD emptySlaInfo
    { d with service_level_agreements := some { s0 with penalty_clauses := l } }
  | .supportTermsF s, d =>
    let s0 := d.service_level_agreements.getD emptySlaInfo
    { d with service_level_agreements := some { s0 with support_terms := some s } }
  | .emailF s, d =>
    let a := d.account_information.getD emptyAccountInfo
    let c := { a.contact_info with email := some s }
    { d with account_information := some { a with contact_info := c } }
  | .phoneF s, d =>
    let a := d.account_information.getD emptyAccountInfo
    let c := { a.contact_info with phone := some s }
    { d with account_information := some { a with contact_info := c } }
  | .accountNumbersF l, d =>
    let a := d.account_information.getD emptyAccountInfo
    { d with account_information := some { a with account_numbers := l } }

/-- Current truthiness of the addressed field in `d`, read exactly the way
the scorer reads it. -/
def fieldTruthyIn : QualField → ExtractedData → Bool
  | .totalValue _, d => getQT d.financial_details FinancialDetails.total_value
  | .currencyF _, d => getStrT d.financial_details FinancialDetails.currency
  | .lineItems _, d => getListT d.financial_details FinancialDetails.line_items
  | .partyName _, d => getStrT d.party_identification PartyInfo.name
  | .legalEntity _, d => getStrT d.party_identification PartyInfo.legal_entity
  | .signatoriesF _, d => getListT d.party_identification PartyInfo.signatories
  | .paymentTermsF _, d => getStrT d.payment_structure PaymentStructure.payment_terms
  | .paymentMethodsF _, d => getListT d.payment_structure PaymentStructure.payment_methods
  | .dueDatesF _, d => getListT d.payment_structure PaymentStructure.due_dates
  | .perfMetrics _, d => getListT d.service_level_agreements SlaInfo.performance_metrics
  | .penaltyClausesF _, d => getListT d.service_level_agreements SlaInfo.penalty_clauses
  | .supportTermsF _, d => getStrT d.service_level_agreements SlaInfo.support_terms
  | .emailF _, d => truthyStr (contactOf d).email
  | .phoneF _, d => truthyStr (contactOf d).phone
  | .accountNumbersF _, d =>
      d.account_information.isSome && getListT d.account_information AccountInfo.account_numbers

/-- Truthiness of the new value a `QualField` carries. -/
def fieldValTruthy : QualField → Bool
  | .totalValue v => truthyQ (some v)
  | .currencyF s => truthyStr (some s)
  | .lineItems l => truthyList l
  | .partyName s => truthyStr (some s)
  | .legalEntity s => truthyStr (some s)
  | .signatoriesF l => truthyList l
  | .paymentTermsF s => truthyStr (some s)
  | .paymentMethodsF l => truthyList l
  | .dueDatesF l => truthyList l
  | .perfMetrics l => truthyList l
  | .penaltyClausesF l => truthyList l
  | .supportTermsF s => truthyStr (some s)
  | .emailF s => truthyStr (some s)
  | .phoneF s => truthyStr (some s)
  | .accountNumbersF l => truthyList l

set_option maxHeartbeats 4000000 in
/-- Claim C8: writing a truthy value into any previously-absent qualifying
field never decreases any component of the confidence scores. -/
theorem c8_scores_monotone (u : QualField) (d : ExtractedData)
    (h1 : fieldTruthyIn u d = false) (h2 : fieldValTruthy u = true) :
    (calculateConfidenceScores d).financial_completeness ≤
      (calculateConfidenceScores (applyQualField u d)).financial_completeness ∧
    (calculateConfidenceScores d).party_identification ≤
      (calculateConfidenceScores (applyQualField u d)).party_identification ∧
    (calculateConfidenceScores d).payment_terms_clarity ≤
      (calculateConfidenceScores (applyQualField u d)).payment_terms_clarity ∧
    (calculateConfidenceScores d).sla_definition ≤
      (calculateConfidenceScores (applyQualField u d)).sla_definition ∧
    (calculateConfidenceScores d).contact_information ≤
      (calculateConfidenceScores (applyQualField u d)).contact_information ∧
    (calculateConfidenceScores d).overall_score ≤
      (calculateConfidenceScores (applyQualField u d)).overall_score := by
  have h5 :
      (calculateConfidenceScores d).financial_completeness ≤
        (calculateConfidenceScores (applyQualField u d)).financial_completeness ∧
      (calculateConfidenceScores d).party_identification ≤
        (calculateConfidenceScores (applyQualField u d)).party_identification ∧
      (calculateConfidenceScores d).payment_terms_clarity ≤
        (calculateConfidenceScores (applyQualField u d)).payment_terms_clarity ∧
      (calculateConfidenceScores d).sla_definition ≤
        (calculateConfidenceScores (applyQualField u d)).sla_definition ∧
      (calculateConfidenceScores d).contact_information ≤
        (calculateConfidenceScores (applyQualField u d)).contact_information := by
    cases u with
    | totalValue v =>
      refine ⟨?_, Nat.le_refl _, Nat.le_refl _, Nat.le_refl _, Nat.le_refl _⟩
      cases hx : d.financial_details <;>
        simp_all [calculateConfidenceScores, applyQualField, fieldTruthyIn, fieldValTruthy,
          getQT, getStrT, getListT, truthyQ, truthyStr, truthyList, truthyContact, contactOf,
          emptyFinancialDetails, emptyPartyInfo, emptyPaymentStructure, emptySlaInfo,
          emptyAccountInfo] <;>
        split_ifs <;> omega
    | currencyF v =>
      refine ⟨?_, Nat.le_refl _, Nat.le_refl _, Nat.le_refl _, Nat.le_refl _⟩
      cases hx : d.financial_details <;>
        simp_all [calculateConfidenceScores, applyQualField, fieldTruthyIn, fieldValTruthy,
          getQT, getStrT, getListT, truthyQ, truthyStr, truthyList, truthyContact, contactOf,
          emptyFinancialDetails, emptyPartyInfo, emptyPaymentStructure, emptySlaInfo,
          emptyAccountInfo] <;>
        split_ifs <;> omega
    | lineItems v =>
      refine ⟨?_, Nat.le_refl _, Nat.le_refl _, Nat.le_refl _, Nat.le_refl _⟩
      cases hx : d.financial_details <;>
        simp_all [calculateConfidenceScores, applyQualField, fieldTruthyIn, fieldValTruthy,
          getQT, getStrT, getListT, truthyQ, truthyStr, truthyList, truthyContact, contactOf,
          emptyFinancialDetails, emptyPartyInfo, emptyPaymentStructure, emptySlaInfo,
          emptyAccountInfo] <;>
        split_ifs <;> omega
    | partyName v =>
      refine ⟨Nat.le_refl _, ?_, Nat.le_refl _, Nat.le_refl _, Nat.le_refl _⟩
      cases hx : d.party_identification <;>
        simp_all [calculateConfidenceScores, applyQualField, fieldTruthyIn, fieldValTruthy,
          getQT, getStrT, getListT, truthyQ, truthyStr, truthyList, truthyContact, contactOf,
          emptyFinancialDetails, emptyPartyInfo, emptyPaymentStructure, emptySlaInfo,
          emptyAccountInfo] <;>
        split_ifs <;> omega
    | legalEntity v =>
      refine ⟨Nat.le_refl _, ?_, Nat.le_refl _, Nat.le_refl _, Nat.le_refl _⟩
      cases hx : d.party_identification <;>
        simp_all [calculateConfidenceScores, applyQualField, fieldTruthyIn, fieldValTruthy,
          getQT, getStrT, getListT, truthyQ, truthyStr, truthyList, truthyContact, contactOf,
          emptyFinancialDetails, emptyPartyInfo, emptyPaymentStructure, emptySlaInfo,
          emptyAccountInfo] <;>
        split_ifs <;> omega
    | signatoriesF v =>
      refine ⟨Nat.le_refl _, ?_, Nat.le_refl _, Nat.le_refl _, Nat.le_refl _⟩
      cases hx : d.party_identification <;>
        simp_all [calculateConfidenceScores, applyQualField, fieldTruthyIn, fieldValTruthy,
          getQT, getStrT, getListT, truthyQ, truthyStr, truthyList, truthyContact, contactOf,
          emptyFinancialDetails, emptyPartyInfo, emptyPaymentStructure, emptySlaInfo,
          emptyAccountInfo] <;>
        split_ifs <;> omega
    | paymentTermsF v =>
      refine ⟨Nat.le_refl _, Nat.le_refl _, ?_, Nat.le_refl _, Nat.le_refl _⟩
      cases hx : d.payment_structure <;>
        simp_all [calculateConfidenceScores, applyQualField, fieldTruthyIn, fieldValTruthy,
          getQT, getStrT, getListT, truthyQ, truthyStr, truthyList, truthyContact, contactOf,
          emptyFinancialDetails, emptyPartyInfo, emptyPaymentStructure, emptySlaInfo,
          emptyAccountInfo] <;>
        split_ifs <;> omega
    | paymentMethodsF v =>
      refine ⟨Nat.le_refl _, Nat.le_refl _, ?_, Nat.le_refl _, Nat.le_refl _⟩
      cases hx : d.payment_structure <;>
        simp_all [calculateConfidenceScores, applyQualField, fieldTruthyIn, fieldValTruthy,
          getQT, getStrT, getListT, truthyQ, truthyStr, truthyList, truthyContact, contactOf,
          emptyFinancialDetails, emptyPartyInfo, emptyPaymentStructure, emptySlaInfo,
          emptyAccountInfo] <;>
        split_ifs <;> omega
    | dueDatesF v =>
      refine ⟨Nat.le_refl _, Nat.le_refl _, ?_, Nat.le_refl _, Nat.le_refl _⟩
      cases hx : d.payment_structure <;>
        simp_all [calculateConfidenceScores, applyQualField, fieldTruthyIn, fieldValTruthy,
          getQT, getStrT, getListT, truthyQ, truthyStr, truthyList, truthyContact, contactOf,
          emptyFinancialDetails, emptyPartyInfo, emptyPaymentStructure, emptySlaInfo,
          emptyAccountInfo] <;>
        split_ifs <;> omega
    | perfMetrics v =>
      refine ⟨Nat.le_refl _, Nat.le_refl _, Nat.le_refl _, ?_, Nat.le_refl _⟩
      cases hx : d.service_level_agreements <;>
        simp_all [calculateConfidenceScores, applyQualField, fieldTruthyIn, fieldValTruthy,
          getQT, getStrT, getListT, truthyQ, truthyStr, truthyList, truthyContact, contactOf,
          emptyFinancialDetails, emptyPartyInfo, emptyPaymentStructure, emptySlaInfo,
          emptyAccountInfo] <;>
        split_ifs <;> omega
    | penaltyClausesF v =>
      refine ⟨Nat.le_refl _, Nat.le_refl _, Nat.le_refl _, ?_, Nat.le_refl _⟩
      cases hx : d.service_level_agreements <;>
        simp_all [calculateConfidenceScores, applyQualField, fieldTruthyIn, fieldValTruthy,
          getQT, getStrT, getListT, truthyQ, truthyStr, truthyList, truthyContact, contactOf,
          emptyFinancialDetails, emptyPartyInfo, emptyPaymentStructure, emptySlaInfo,
          emptyAccountInfo] <;>
        split_ifs <;> omega
    | supportTermsF v =>
      refine ⟨Nat.le_refl _, Nat.le_refl _, Nat.le_refl _, ?_, Nat.le_refl _⟩
      cases hx : d.service_level_agreements <;>
        simp_all [calculateConfidenceScores, applyQualField, fieldTruthyIn, fieldValTruthy,
          getQT, getStrT, getListT, truthyQ, truthyStr, truthyList, truthyContact, contactOf,
          emptyFinancialDetails, emptyPartyInfo, emptyPaymentStructure, emptySlaInfo,
          emptyAccountInfo] <;>
        split_ifs <;> omega
    | emailF v =>
      refine ⟨Nat.le_refl _, Nat.le_refl _, Nat.le_refl _, Nat.le_refl _, ?_⟩
      cases hx : d.account_information <;>
        simp_all [calculateConfidenceScores, applyQualField, fieldTruthyIn, fieldValTruthy,
          getQT, getStrT, getListT, truthyQ, truthyStr, truthyList, truthyContact, contactOf,
          emptyFinancialDetails, emptyPartyInfo, emptyPaymentStructure, emptySlaInfo,
          emptyAccountInfo] <;>
        split_ifs <;> omega
    | phoneF v =>
      refine ⟨Nat.le_refl _, Nat.le_refl _, Nat.le_refl _, Nat.le_refl _, ?_⟩
      cases hx : d.account_information <;>
        simp_all [calculateConfidenceScores, applyQualField, fieldTruthyIn, fieldValTruthy,
          getQT, getStrT, getListT, truthyQ, truthyStr, truthyList, truthyContact, contactOf,
          emptyFinancialDetails, emptyPartyInfo, emptyPaymentStructure, emptySlaInfo,
          emptyAccountInfo] <;>
        split_ifs <;> omega
    | accountNumbersF v =>
      refine ⟨Nat.le_refl _, Nat.le_refl _, Nat.le_refl _, Nat.le_refl _, ?_⟩
      cases hx : d.account_information <;>
        simp_all [calculateConfidenceScores, applyQualField, fieldTruthyIn, fieldValTruthy,
          getQT, getStrT, getListT, truthyQ, truthyStr, truthyList, truthyContact, contactOf,
          emptyFinancialDetails, emptyPartyInfo, emptyPaymentStructure, emptySlaInfo,
          emptyAccountInfo] <;>
        split_ifs <;> omega
  obtain ⟨hf, hp, hpay, hs, hc⟩ := h5
  have e1 := overall_score_eq d
  have e2 := overall_score_eq (applyQualField u d)
  exact ⟨hf, hp, hpay, hs, hc, by omega⟩

/-- Witness for claim C8 at a concrete input: writing total value 100 into
the fully-empty record, with both hypotheses discharged by evaluation. -/
theorem c8_scores_monotone_witness :
    (calculateConfidenceScores getEmptyExtractedData).financial_completeness ≤
      (calculateConfidenceScores
        (applyQualField (.totalValue 100) getEmptyExtractedData)).financial_completeness ∧
    (calculateConfidenceScores getEmptyExtractedData).party_identification ≤
      (calculateConfidenceScores
        (applyQualField (.totalValue 100) getEmptyExtractedData)).party_identification ∧
    (calculateConfidenceScores getEmptyExtractedData).payment_terms_clarity ≤
      (calculateConfidenceScores
        (applyQualField (.totalValue 100) getEmptyExtractedData)).payment_terms_clarity ∧
    (calculateConfidenceScores getEmptyExtractedData).sla_definition ≤
      (calculateConfidenceScores
        (applyQualField (.totalValue 100) getEmptyExtractedData)).sla_definition ∧
    (calculateConfidenceScores getEmptyExtractedData).contact_information ≤
      (calculateConfidenceScores
        (applyQualField (.totalValue 100) getEmptyExtractedData)).contact_information ∧
    (calculateConfidenceScores getEmptyExtractedData).overall_score ≤
      (calculateConfidenceScores
        (applyQualField (.totalValue 100) getEmptyExtractedData)).overall_score :=
  c8_scores_monotone (.totalValue 100) getEmptyExtractedData (by decide) (by decide)

/-- Claim C5: `payment_terms` is the full match (`group(0)`) of the first
pattern type — "net N", then "payment terms: ...", then "due within N
days" — that matches anywhere in the text, `None` when none matches; the
concrete instance shows pattern priority beating document order ("due
within 10 days" appears first in the text, yet the net-terms pattern
wins). -/
theorem c5_payment_terms_priority (t : List Char) :
    ((extractPaymentStructure t).payment_terms =
      (match reSearch t netRe with
       | some m => some (subStr t m.1 m.2.1)
       | none =>
         match reSearch t payTermsRe with
         | some m => some (subStr t m.1 m.2.1)
         | none =>
           match reSearch t dueRe with
           | some m => some (subStr t m.1 m.2.1)
           | none => none)) ∧
    ((extractPaymentStructure t).payment_terms = none ↔
      reSearch t netRe = none ∧ reSearch t payTermsRe = none ∧ reSearch t dueRe = none) ∧
    (extractPaymentStructure ("due within 10 days then net 30".toList)).payment_terms =
      some ("net 30".toList) := by
  have hterms : (extractPaymentStructure t).payment_terms =
      firstSearchFull t [netRe, payTermsRe, dueRe] := rfl
  refine ⟨?_, ?_, by decide⟩ <;>
    rw [hterms] <;>
    cases hn : reSearch t netRe <;>
    cases hp : reSearch t payTermsRe <;>
    cases hd : reSearch t dueRe <;>
    simp [firstSearchFull, hn, hp, hd]

/-! ## Claims C1 and C2: the empty input and the fail-soft fallback -/

/-- Counterexample to claim C1 as stated: scoring `parse_contract("")` does
not give overall 0 — the `currency` default `"USD"` is truthy and earns the
5 currency points. -/
theorem c1_counterexample :
    (calculateConfidenceScores (parseContract ("".toList))).overall_score = 5 ∧
    (calculateConfidenceScores (parseContract ("".toList))).overall_score ≠ 0 := by
  decide

/-- Claim C1 as amended: `parse_contract("")` returns, without any fault,
the default structure in which every field is null/empty except
`currency = "USD"` and `auto_renewal = false` (the sections in order: party,
account, financial, payment, revenue, SLA), and scoring it gives
`overall_score = 5`, earned entirely by the currency default. -/
theorem c1_empty_input_amended :
    parseContract ("".toList) =
      ⟨some ⟨none, none, none, [], []⟩,
       some ⟨none, [], ⟨none, none⟩⟩,
       some ⟨[], none, some ("USD".toList), [], []⟩,
       some ⟨none, [], [], []⟩,
       some ⟨none, none, none, some false⟩,
       some ⟨[], [], none, none⟩⟩ ∧
    (calculateConfidenceScores (parseContract ("".toList))).overall_score = 5 := by
  exact ⟨by decide, by decide⟩

/-- Empty revenue section (all field keys present, all values null). -/
def emptyRevenueClassification : RevenueClassification :=
  { payment_type := none, billing_cycle := none, renewal_terms := none,
    auto_renewal := none }

/-- The fallback structure as claim C2 describes it, modelled from the
spec's words: all six sections present with every field key present and
null/empty — which is not what `_get_empty_extracted_data` builds. -/
def specFieldsPresentEmptyData : ExtractedData :=
  ⟨some emptyPartyInfo, some emptyAccountInfo, some emptyFinancialDetails,
   some emptyPaymentStructure, some emptyRevenueClassification, some emptySlaInfo⟩

/-- A body for the `try` block that raises, standing for an
`ExtractionFault` inside an extractor. -/
def failingBody : List Char → Except (List Char) ExtractedData :=
  fun _ => .error ("ExtractionFault".toList)

/-- Counterexample to claim C2 as stated: on a fault the fallback structure
is returned, but it is the six bare `{}` sections (all field keys omitted),
not the sections-with-null-fields structure the claim describes. -/
theorem c2_counterexample :
    parseContractWith failingBody ("some text".toList) = getEmptyExtractedData ∧
    parseContractWith failingBody ("some text".toList) ≠ specFieldsPresentEmptyData := by
  decide

/-- Claim C2 as amended: whenever the `try` body faults, `parse_contract`
catches and returns `_get_empty_extracted_data`, whose six section keys are
all present but each maps to the bare `{}` with every field key omitted
(read back through `.get`, such a field is indistinguishable from a null
one; as a dictionary shape it is not the fields-present-as-null form). -/
theorem c2_failsoft_amended (body : List Char → Except (List Char) ExtractedData)
    (t e : List Char) (h : body t = .error e) :
    parseContractWith body t = getEmptyExtractedData ∧
    getEmptyExtractedData = ⟨none, none, none, none, none, none⟩ := by
  constructor
  · unfold parseContractWith
    rw [h]
  · rfl

/-- Witness for claim C2's amended theorem at a concrete faulting body. -/
theorem c2_failsoft_amended_witness :
    parseContractWith failingBody ("text".toList) = getEmptyExtractedData ∧
    getEmptyExtractedData = ⟨none, none, none, none, none, none⟩ :=
  c2_failsoft_amended failingBody ("text".toList) ("ExtractionFault".toList) rfl

/-! ## Claim C4: the financial extractor -/

/-- The running fold of `max` never drops below its seed. -/
lemma le_foldl_max (x : ℚ) (l : List ℚ) : x ≤ l.foldl max x := by
  induction l generalizing x with
  | nil => exact le_refl x
  | cons y ys ih => exact le_trans (le_max_left x y) (ih (max x y))

/-- The fold of `max` is the seed or one of the elements. -/
lemma foldl_max_mem (x : ℚ) (l : List ℚ) : l.foldl max x ∈ x :: l := by
  induction l generalizing x with
  | nil => simp
  | cons y ys ih =>
    have h := ih (max x y)
    rcases List.mem_cons.mp h with h1 | h1
    · rw [List.foldl_cons, h1]
      rcases max_choice x y with h2 | h2 <;> rw [h2] <;> simp
    · rw [List.foldl_cons]
      exact List.mem_cons_of_mem _ (List.mem_cons_of_mem _ h1)

/-- Every element (and the seed) is at most the fold of `max`. -/
lemma mem_le_foldl_max (x : ℚ) (l : List ℚ) : ∀ a ∈ x :: l, a ≤ l.foldl max x := by
  induction l generalizing x with
  | nil => intro a ha; rw [List.mem_singleton] at ha; simp [ha]
  | cons y ys ih =>
    intro a ha
    rcases List.mem_cons.mp ha with rfl | ha2
    · exact le_trans (le_max_left a y) (le_foldl_max _ _)
    · rcases List.mem_cons.mp ha2 with rfl | ha3
      · exact le_trans (le_max_right x a) (le_foldl_max _ _)
      · exact ih (max x y) a (List.mem_cons_of_mem _ ha3)

/-- Python's `max` on a non-empty float list returns a member that bounds
every member. -/
lemma pyMaxQ_spec (l : List ℚ) (h : l ≠ []) :
    ∃ m, pyMaxQ l = some m ∧ m ∈ l ∧ ∀ a ∈ l, a ≤ m := by
  cases l with
  | nil => exact absurd rfl h
  | cons x xs => exact ⟨xs.foldl max x, rfl, foldl_max_mem x xs, mem_le_foldl_max x xs⟩

/-- Case-insensitive occurrence of `w` as a plain substring of `t` starting
at position `i` (the spec-side notion of a code "appearing" in the text). -/
def matchesCI : List Char → List Char → Nat → Bool
  | [], _, _ => true
  | c :: cs, t, i =>
    match charAt? t i with
    | some x => x.toLower = c.toLower && matchesCI cs t (i + 1)
    | none => false

/-- A case-insensitive literal matches at `i` iff the literal occurs there
case-insensitively, and then in exactly one way, consuming its length. -/
lemma reMatches_strCI (w : List Char) (t : List Char) (i : Nat) (cp : Caps) :
    reMatches t (strCI w) i cp =
      if matchesCI w t i then [(i + w.length, cp)] else [] := by
  induction w generalizing i with
  | nil => simp [strCI, seqList, matchesCI, reMatches]
  | cons c cs ih =>
    show reMatches t (.seq (chCI c) (strCI cs)) i cp = _
    cases hx : charAt? t i with
    | none => simp [reMatches, chCI, hx, matchesCI]
    | some x =>
      cases hlow : decide (x.toLower = c.toLower) with
      | false =>
        have hl : (x.toLower = c.toLower) = False := by
          simpa using of_decide_eq_false hlow
        simp [reMatches, chCI, hx, matchesCI, hl]
      | true =>
        have hl : x.toLower = c.toLower := of_decide_eq_true hlow
        cases hm : matchesCI cs t (i + 1) <;>
          simp [reMatches, chCI, hx, matchesCI, hl, hm, ih] <;> omega

/-- The five currency codes of the source's pattern, in alternation order. -/
def currencyCodes : List (List Char) :=
  [("USD".toList), ("EUR".toList), ("GBP".toList), ("CAD".toList), ("AUD".toList)]

/-- The code occurrence starting at position `i`, if any, as written in the
text (all codes are three letters, and at most one can start at a given
position, so the occurrence is the slice `t[i:i+3]`). -/
def codeAtCI (t : List Char) (i : Nat) : Option (List Char) :=
  if currencyCodes.any (fun w => matchesCI w t i) then some (subStr t i (i + 3)) else none

/-- Modelled from the spec's words for claim C4's currency clause as
stated: scan left to right for the first position at which one of the five
codes occurs case-insensitively as a plain substring (no word-boundary
requirement). -/
def firstCodeSubstringAux (t : List Char) : Nat → Nat → Option (List Char)
  | _, 0 => none
  | i, fuel + 1 =>
    match codeAtCI t i with
    | some w => some w
    | none => if i < t.length then firstCodeSubstringAux t (i + 1) fuel else none

/-- First case-insensitive substring occurrence of a code (claim C4's
currency rule as stated). -/
def firstCodeSubstring (t : List Char) : Option (List Char) :=
  firstCodeSubstringAux t 0 (t.length + 1)

/-- The word-bounded variant of the scan: the first position at which a code
occurs case-insensitively with word boundaries on both sides. -/
def firstCodeWordAux (t : List Char) : Nat → Nat → Option (List Char)
  | _, 0 => none
  | i, fuel + 1 =>
    match (if wbAt t i && wbAt t (i + 3) then codeAtCI t i else none) with
    | some w => some w
    | none => if i < t.length then firstCodeWordAux t (i + 1) fuel else none

/-- First word-bounded case-insensitive occurrence of a code (the amended
currency rule). -/
def firstCodeWord (t : List Char) : Option (List Char) :=
  firstCodeWordAux t 0 (t.length + 1)

/-- Counterexample to claim C4's currency clause as stated: in the text
"scadi EUR" the first case-insensitive substring occurrence of a code is
"cad" (inside "scadi"), so the stated rule yields "CAD"; the source's
word-bounded search yields "EUR". -/
theorem c4_counterexample :
    firstCodeSubstring ("scadi EUR".toList) = some ("cad".toList) ∧
    upperStr ("cad".toList) = ("CAD".toList) ∧
    (extractFinancialDetails ("scadi EUR".toList)).currency = some ("EUR".toList) ∧
    ("CAD".toList) ≠ ("EUR".toList) := by
  refine ⟨by decide, by decide, ?_, by decide⟩
  show some _ = _
  decide

/-- Matching under a group wrapper records the group span. -/
lemma reMatches_grp1 (t : List Char) (a : RE) (i : Nat) (cp : Caps) :
    reMatches t (.grp1 a) i cp =
      (reMatches t a i cp).map (fun r => (r.1, { r.2 with g1 := some (i, r.1) })) := rfl

/-- Matching an alternation concatenates the branch results in order. -/
lemma reMatches_alt (t : List Char) (a b : RE) (i : Nat) (cp : Caps) :
    reMatches t (.alt a b) i cp = reMatches t a i cp ++ reMatches t b i cp := rfl

/-- The never-matching class produces no results. -/
lemma reMatches_fail (t : List Char) (i : Nat) (cp : Caps) :
    reMatches t (.cls (fun _ => false)) i cp = [] := by
  cases hx : charAt? t i <;> simp [reMatches, hx]

/-- The grouped code alternation of the currency pattern matches at `i`
once per code that occurs case-insensitively at `i`, always consuming three
characters and capturing the span `(i, i+3)`. -/
lemma inner_codes (t : List Char) (i : Nat) (cp : Caps) :
    reMatches t (.grp1 (altList [strCI ("USD".toList), strCI ("EUR".toList),
        strCI ("GBP".toList), strCI ("CAD".toList), strCI ("AUD".toList)])) i cp =
      (currencyCodes.filter (fun w => matchesCI w t i)).map
        (fun _ => (i + 3, { cp with g1 := some (i, i + 3) })) := by
  have l1 : ("USD".toList).length = 3 := rfl
  have l2 : ("EUR".toList).length = 3 := rfl
  have l3 : ("GBP".toList).length = 3 := rfl
  have l4 : ("CAD".toList).length = 3 := rfl
  have l5 : ("AUD".toList).length = 3 := rfl
  have halt : altList [strCI ("USD".toList), strCI ("EUR".toList), strCI ("GBP".toList),
      strCI ("CAD".toList), strCI ("AUD".toList)] =
    .alt (strCI ("USD".toList)) (.alt (strCI ("EUR".toList)) (.alt (strCI ("GBP".toList))
      (.alt (strCI ("CAD".toList)) (.alt (strCI ("AUD".toList)) (.cls (fun _ => false)))))) := rfl
  rw [reMatches_grp1, halt, reMatches_alt, reMatches_alt, reMatches_alt, reMatches_alt,
    reMatches_alt, reMatches_fail, reMatches_strCI, reMatches_strCI, reMatches_strCI,
    reMatches_strCI, reMatches_strCI, l1, l2, l3, l4, l5]
  have e1 : ("USD".toList) = ['U', 'S', 'D'] := rfl
  have e2 : ("EUR".toList) = ['E', 'U', 'R'] := rfl
  have e3 : ("GBP".toList) = ['G', 'B', 'P'] := rfl
  have e4 : ("CAD".toList) = ['C', 'A', 'D'] := rfl
  have e5 : ("AUD".toList) = ['A', 'U', 'D'] := rfl
  simp only [e1, e2, e3, e4, e5]
  cases h1 : matchesCI ['U', 'S', 'D'] t i <;>
  cases h2 : matchesCI ['E', 'U', 'R'] t i <;>
  cases h3 : matchesCI ['G', 'B', 'P'] t i <;>
  cases h4 : matchesCI ['C', 'A', 'D'] t i <;>
  cases h5 : matchesCI ['A', 'U', 'D'] t i <;>
    simp [currencyCodes, h1, h2, h3, h4, h5]

/-- Flat-mapping a constant singleton is a replicate. -/
lemma flatMap_const_singleton {α β : Type} (l : List α) (x : β) :
    (l.flatMap fun _ => [x]) = List.replicate l.length x := by
  induction l with
  | nil => rfl
  | cons a as ih => simp [ih, List.replicate_succ]

/-- The full currency pattern matches at `i` iff word boundaries frame a
three-character window at `i` in which some code occurs case-insensitively. -/
lemma currencyRe_matches (t : List Char) (i : Nat) (cp : Caps) :
    reMatches t currencyRe i cp =
      if wbAt t i && wbAt t (i + 3) then
        (currencyCodes.filter (fun w => matchesCI w t i)).map
          (fun _ => (i + 3, { cp with g1 := some (i, i + 3) }))
      else [] := by
  have hsplit : currencyRe = .seq .wordB (.seq (.grp1 (altList [strCI ("USD".toList),
      strCI ("EUR".toList), strCI ("GBP".toList), strCI ("CAD".toList),
      strCI ("AUD".toList)])) (.seq .wordB .eps)) := rfl
  rw [hsplit]
  cases hb1 : wbAt t i with
  | false => simp [reMatches, hb1]
  | true =>
    show ((if wbAt t i then [(i, cp)] else []).flatMap _) = _
    rw [if_pos hb1]
    show reMatches t (.seq (.grp1 _) (.seq .wordB .eps)) i cp ++ [] = _
    show (reMatches t (.grp1 _) i cp).flatMap _ ++ [] = _
    rw [inner_codes, List.flatMap_map]
    cases hb2 : wbAt t (i + 3) <;>
      simp [reMatches, hb2, hb1, flatMap_const_singleton]

/-- The source's `re.search` of the currency pattern agrees, after group
extraction and uppercasing, with the word-bounded left-to-right scan. -/
lemma searchCurrency_eq_wordScan (t : List Char) (fuel : Nat) : ∀ (i : Nat),
    (reSearchAux t currencyRe i fuel).map (fun m => upperStr (capStr t m.2.2.g1)) =
      (firstCodeWordAux t i fuel).map upperStr := by
  induction fuel with
  | zero => intro i; rfl
  | succ n ih =>
    intro i
    have hre := currencyRe_matches t i {}
    simp only [reSearchAux, firstCodeWordAux, hre]
    cases hb : (wbAt t i && wbAt t (i + 3)) with
    | false =>
      simp only [hb, Bool.false_eq_true, if_false, codeAtCI]
      by_cases hlt : i < t.length <;> simp [hlt, ih]
    | true =>
      cases hany : currencyCodes.any (fun w => matchesCI w t i) with
      | false =>
        have hfil : currencyCodes.filter (fun w => matchesCI w t i) = [] := by
          rw [List.filter_eq_nil_iff]
          intro a ha hpa
          have : currencyCodes.any (fun w => matchesCI w t i) = true :=
            List.any_eq_true.mpr ⟨a, ha, hpa⟩
          rw [this] at hany
          simp at hany
        simp only [hb, if_true, hfil, List.map_nil, codeAtCI, hany]
        by_cases hlt : i < t.length <;> simp [hlt, ih]
      | true =>
        cases hfil : currencyCodes.filter (fun w => matchesCI w t i) with
        | nil =>
          exfalso
          rcases List.any_eq_true.mp hany with ⟨w, hw, hpw⟩
          have : w ∈ currencyCodes.filter (fun w => matchesCI w t i) :=
            List.mem_filter.mpr ⟨hw, hpw⟩
          simp [hfil] at this
        | cons w ws =>
          simp [hb, hfil, codeAtCI, hany, capStr, upperStr]

/-- Claim C4 as amended: `total_value` is the maximum of all parsed matched
amounts whenever any exist; `currency` defaults to `"USD"` unless one of
USD/EUR/GBP/CAD/AUD appears case-insensitively as a word-bounded (not plain
substring) occurrence, in which case the first such occurrence, uppercased,
is used. -/
theorem c4_financial_amended (t : List Char) :
    (moneyAmounts t ≠ [] →
      ∃ m, (extractFinancialDetails t).total_value = some m ∧
        m ∈ moneyAmounts t ∧ ∀ a ∈ moneyAmounts t, a ≤ m) ∧
    (extractFinancialDetails t).currency =
      some (match firstCodeWord t with
            | some w => upperStr w
            | none => ("USD".toList)) := by
  constructor
  · intro h
    have hv : (extractFinancialDetails t).total_value = pyMaxQ (moneyAmounts t) := rfl
    obtain ⟨m, hm, hmem, hle⟩ := pyMaxQ_spec (moneyAmounts t) h
    exact ⟨m, by rw [hv, hm], hmem, hle⟩
  · have h' : (reSearch t currencyRe).map (fun m => upperStr (capStr t m.2.2.g1)) =
        (firstCodeWord t).map upperStr := searchCurrency_eq_wordScan t (t.length + 1) 0
    have hc : (extractFinancialDetails t).currency =
        some (match reSearch t currencyRe with
              | some m => upperStr (capStr t m.2.2.g1)
              | none => ("USD".toList)) := rfl
    rw [hc]
    cases hs : reSearch t currencyRe <;> cases hw : firstCodeWord t <;>
      rw [hs, hw] at h' <;> simp_all

/-- Witness for claim C4's amended theorem: on `"$5 and $12"` the amounts
list is non-empty and the maximum exists. -/
theorem c4_financial_amended_witness :
    ∃ m, (extractFinancialDetails ("$5 and $12".toList)).total_value = some m ∧
      m ∈ moneyAmounts ("$5 and $12".toList) ∧
      ∀ a ∈ moneyAmounts ("$5 and $12".toList), a ≤ m :=
  (c4_financial_amended ("$5 and $12".toList)).1 (by decide)

/-! ## Claim C6: text normalization -/

/-- Dropping a prefix never lengthens a list. -/
lemma length_dropWhile_le (p : Char → Bool) (l : List Char) :
    (l.dropWhile p).length ≤ l.length := by
  induction l with
  | nil => simp
  | cons c rest ih =>
    rw [List.dropWhile_cons]
    split
    · exact Nat.le_succ_of_le ih
    · exact Nat.le_refl _

/-- Whether position zero of `rest` begins outside a word (either the text
ends or whitespace follows). -/
def startsNewWord : List Char → Bool
  | [] => true
  | x :: _ => isPySpace x

/-- The whitespace-delimited words of a text, in order (the maximal runs of
non-whitespace characters); used to state what collapsing whitespace runs
and stripping the ends must produce.  Structurally recursive: a
non-whitespace head either opens a fresh word or extends the word the tail
begins with. -/
def wordsPy : List Char → List (List Char)
  | [] => []
  | c :: rest =>
    if isPySpace c then wordsPy rest
    else if startsNewWord rest then [c] :: wordsPy rest
    else (c :: (wordsPy rest).headD []) :: (wordsPy rest).tail

/-- On a non-whitespace head, `wordsPy` produces the maximal word through
`takeWhile` and recurses on the `dropWhile` remainder. -/
lemma wordsPy_cons_word (rest : List Char) : ∀ (c : Char), isPySpace c = false →
    wordsPy (c :: rest) =
      (c :: rest.takeWhile (fun x => !isPySpace x)) ::
        wordsPy (rest.dropWhile (fun x => !isPySpace x)) := by
  induction rest with
  | nil => intro c hc; rw [wordsPy]; simp [startsNewWord, hc]
  | cons a as ih =>
    intro c hc
    cases ha : isPySpace a with
    | true =>
      rw [wordsPy]
      simp [startsNewWord, hc, ha, List.takeWhile_cons, List.dropWhile_cons]
    | false =>
      have iha := ih a ha
      rw [wordsPy, iha]
      simp [startsNewWord, hc, ha, List.takeWhile_cons, List.dropWhile_cons, iha]

/-- Processing a run of non-whitespace characters copies it unchanged. -/
lemma subWsAux_append_word (w : List Char) (l : List Char)
    (hw : ∀ c ∈ w, isPySpace c = false) :
    subWsAux false (w ++ l) = w ++ subWsAux false l := by
  induction w with
  | nil => rfl
  | cons c cs ih =>
    have hc : isPySpace c = false := hw c (List.mem_cons_self c cs)
    have ih2 := ih (fun x hx => hw x (List.mem_cons_of_mem c hx))
    simp [subWsAux, hc, ih2]

/-- In-run processing equals fresh processing of the text with its leading
whitespace removed. -/
lemma subWsAux_true_eq (l : List Char) :
    subWsAux true l = subWsAux false (l.dropWhile isPySpace) := by
  induction l with
  | nil => rfl
  | cons c rest ih =>
    cases hc : isPySpace c with
    | true => simp [subWsAux, hc, List.dropWhile_cons, ih]
    | false => simp [subWsAux, hc, List.dropWhile_cons]

/-- The head surviving a `dropWhile` falsifies the predicate. -/
lemma head_dropWhile_false (p : Char → Bool) (l : List Char) (c : Char)
    (h : (l.dropWhile p).head? = some c) : p c = false := by
  induction l with
  | nil => simp at h
  | cons a rest ih =>
    rw [List.dropWhile_cons] at h
    by_cases hp : p a = true
    · exact ih (by simpa [hp] using h)
    · have : a = c := by simpa [hp] using h
      subst this
      simpa using hp

/-- Output of in-run processing never starts with whitespace. -/
lemma subWsAux_true_head (l : List Char) (c : Char)
    (h : (subWsAux true l).head? = some c) : isPySpace c = false := by
  induction l with
  | nil => simp [subWsAux] at h
  | cons a rest ih =>
    by_cases ha : isPySpace a = true
    · exact ih (by simpa [subWsAux, ha] using h)
    · have : a = c := by simpa [subWsAux, ha] using h
      subst this
      simpa using ha

/-- A list whose head falsifies `p` is unchanged by `dropWhile p`. -/
lemma dropWhile_eq_self_of_head (p : Char → Bool) (l : List Char)
    (h : ∀ c, l.head? = some c → p c = false) : l.dropWhile p = l := by
  cases l with
  | nil => rfl
  | cons a rest =>
    have := h a rfl
    simp [List.dropWhile_cons, this]

/-- Left-stripping commutes with whitespace-run collapsing. -/
lemma lstrip_subWsAux (l : List Char) :
    (subWsAux false l).dropWhile isPySpace = subWsAux false (l.dropWhile isPySpace) := by
  cases l with
  | nil => rfl
  | cons c rest =>
    cases hc : isPySpace c with
    | false => simp [subWsAux, hc, List.dropWhile_cons]
    | true =>
      have h1 : subWsAux false (c :: rest) = ' ' :: subWsAux true rest := by
        simp [subWsAux, hc]
      have h2 : (c :: rest).dropWhile isPySpace = rest.dropWhile isPySpace := by
        simp [List.dropWhile_cons, hc]
      have hsp : isPySpace ' ' = true := rfl
      rw [h1, h2, List.dropWhile_cons, if_pos hsp, subWsAux_true_eq]
      exact dropWhile_eq_self_of_head _ _
        (fun x hx => subWsAux_true_head rest x (by rw [subWsAux_true_eq]; exact hx))

/-- Right-stripping drops a trailing space. -/
lemma rstrip_append_space (w : List Char) :
    rstripWs (w ++ [' ']) = rstripWs w := by
  unfold rstripWs
  rw [List.reverse_append]
  have hsp : isPySpace ' ' = true := rfl
  simp [List.dropWhile_cons, hsp]

/-- Right-stripping leaves an all-non-whitespace list unchanged. -/
lemma rstrip_of_no_space (w : List Char) (hw : ∀ c ∈ w, isPySpace c = false) :
    rstripWs w = w := by
  unfold rstripWs
  rw [dropWhile_eq_self_of_head, List.reverse_reverse]
  intro c hc
  apply hw
  have : c ∈ w.reverse := by
    cases hr : w.reverse with
    | nil => simp [hr] at hc
    | cons a rest => rw [hr] at hc; simp at hc; simp [hr, hc]
  simpa using this

/-- Right-stripping distributes over a prefix when the suffix keeps
something. -/
lemma rstrip_append_of_ne_nil (a b : List Char) (hb : rstripWs b ≠ []) :
    rstripWs (a ++ b) = a ++ rstripWs b := by
  unfold rstripWs at *
  rw [List.reverse_append, List.dropWhile_append]
  have hne : (b.reverse.dropWhile isPySpace).isEmpty = false := by
    cases hh : b.reverse.dropWhile isPySpace with
    | nil => exfalso; apply hb; rw [hh]; rfl
    | cons x xs => rfl
  rw [hne]
  simp

/-- A list starting with a non-whitespace character survives
right-stripping. -/
lemma rstrip_ne_nil_of_head (c : Char) (l : List Char) (hc : isPySpace c = false) :
    rstripWs (c :: l) ≠ [] := by
  unfold rstripWs
  intro h
  have h2 : (c :: l).reverse.dropWhile isPySpace = [] := by
    have := congrArg List.reverse h
    simpa using this
  have hmem : c ∈ (c :: l).reverse := by simp
  rw [List.dropWhile_eq_nil_iff] at h2
  have := h2 c hmem
  rw [hc] at this
  exact Bool.false_ne_true this

/-- Interleaving into the empty word list. -/
lemma intercalate_nil_words (s : List Char) :
    List.intercalate s ([] : List (List Char)) = [] := rfl

/-- Interleaving a single word. -/
lemma intercalate_single (s : List Char) (a : List Char) :
    List.intercalate s [a] = a := by
  simp [List.intercalate, List.intersperse]

/-- Interleaving at least two words. -/
lemma intercalate_cons₂ (s a : List Char) (l : List (List Char)) (hl : l ≠ []) :
    List.intercalate s (a :: l) = a ++ s ++ List.intercalate s l := by
  cases l with
  | nil => exact absurd rfl hl
  | cons b t => simp [List.intercalate, List.intersperse]

/-- Leading whitespace contributes no words. -/
lemma wordsPy_dropWhile (l : List Char) :
    wordsPy (l.dropWhile isPySpace) = wordsPy l := by
  induction l with
  | nil => rfl
  | cons c rest ih =>
    cases hc : isPySpace c with
    | true =>
      rw [List.dropWhile_cons, if_pos hc, ih, wordsPy.eq_2, if_pos hc]
    | false =>
      rw [List.dropWhile_cons, if_neg (by simp [hc])]

/-- Core of the normalization contract: on text with no leading whitespace,
collapsing whitespace runs and right-stripping yields exactly the words
joined by single spaces. -/
lemma rstrip_subWs_eq_intercalate (n : Nat) : ∀ l : List Char, l.length ≤ n →
    (∀ c, l.head? = some c → isPySpace c = false) →
    rstripWs (subWsAux false l) = List.intercalate [' '] (wordsPy l) := by
  induction n with
  | zero =>
    intro l hl _
    have : l = [] := List.length_eq_zero.mp (Nat.le_zero.mp hl)
    subst this
    rfl
  | succ n ih =>
    intro l hl hhead
    cases l with
    | nil => rfl
    | cons c rest =>
      have hc : isPySpace c = false := hhead c rfl
      have hsplit : c :: rest =
          (c :: rest.takeWhile (fun x => !isPySpace x)) ++
            rest.dropWhile (fun x => !isPySpace x) := by
        rw [List.cons_append, List.takeWhile_append_dropWhile]
      have hwns : ∀ x ∈ c :: rest.takeWhile (fun x => !isPySpace x), isPySpace x = false := by
        intro x hx
        rcases List.mem_cons.mp hx with rfl | hx2
        · exact hc
        · simpa using List.mem_takeWhile_imp hx2
      have hWords := wordsPy_cons_word rest c hc
      have hsub : subWsAux false (c :: rest) =
          (c :: rest.takeWhile (fun x => !isPySpace x)) ++
            subWsAux false (rest.dropWhile (fun x => !isPySpace x)) := by
        conv_lhs => rw [hsplit]
        exact subWsAux_append_word _ _ hwns
      rw [hsub, hWords]
      cases hr0 : rest.dropWhile (fun x => !isPySpace x) with
      | nil =>
        rw [show subWsAux false [] = ([] : List Char) from rfl, List.append_nil]
        rw [rstrip_of_no_space _ hwns]
        rw [show wordsPy ([] : List Char) = [] from rfl, intercalate_single]
      | cons a as =>
        have ha : isPySpace a = true := by
          have h1 : (rest.dropWhile (fun x => !isPySpace x)).head? = some a := by
            rw [hr0]; rfl
          have := head_dropWhile_false (fun x => !isPySpace x) rest a h1
          simpa using this
        have hsubr : subWsAux false (a :: as) =
            ' ' :: subWsAux false (as.dropWhile isPySpace) := by
          simp [subWsAux, ha, subWsAux_true_eq]
        have hwr : wordsPy (a :: as) = wordsPy (as.dropWhile isPySpace) := by
          rw [wordsPy_dropWhile]
          rw [wordsPy.eq_2, if_pos ha]
        rw [hsubr, hwr]
        cases ht : as.dropWhile isPySpace with
        | nil =>
          rw [show subWsAux false [] = ([] : List Char) from rfl]
          rw [rstrip_append_space, rstrip_of_no_space _ hwns]
          rw [show wordsPy ([] : List Char) = [] from rfl, intercalate_single]
        | cons d ds =>
          have hd : isPySpace d = false := by
            have h1 : (as.dropWhile isPySpace).head? = some d := by rw [ht]; rfl
            exact head_dropWhile_false isPySpace as d h1
          have hdsub : subWsAux false (d :: ds) = d :: subWsAux false ds := by
            simp [subWsAux, hd]
          have hne : rstripWs (subWsAux false (d :: ds)) ≠ [] := by
            rw [hdsub]
            exact rstrip_ne_nil_of_head d _ hd
          have hlen : (d :: ds).length ≤ n := by
            have h1 : (a :: as).length ≤ rest.length := by
              rw [← hr0]; exact length_dropWhile_le _ rest
            have h2 : (d :: ds).length ≤ as.length := by
              rw [← ht]; exact length_dropWhile_le _ as
            simp only [List.length_cons] at h1 h2 hl ⊢
            omega
          have hih := ih (d :: ds) hlen
            (by intro x hx
                have hxd : d = x := by simpa using hx
                rw [← hxd]; exact hd)
          have hassoc : (c :: rest.takeWhile (fun x => !isPySpace x)) ++
              ' ' :: subWsAux false (d :: ds) =
              ((c :: rest.takeWhile (fun x => !isPySpace x)) ++ [' ']) ++
                subWsAux false (d :: ds) := by
            simp
          rw [hassoc, rstrip_append_of_ne_nil _ _ hne, hih]
          have hwords_ne : wordsPy (d :: ds) ≠ [] := by
            rw [wordsPy_cons_word ds d hd]
            exact List.cons_ne_nil _ _
          rw [intercalate_cons₂ _ _ _ hwords_ne]

/-- The normalization characterization: `_clean_text` is exactly the
whitespace-delimited words joined by single spaces. -/
lemma cleanText_eq_intercalate (l : List Char) :
    cleanText l = List.intercalate [' '] (wordsPy l) := by
  unfold cleanText lstripWs subWsRuns
  rw [lstrip_subWsAux]
  rw [rstrip_subWs_eq_intercalate (l.dropWhile isPySpace).length _ (le_refl _)
    (fun c hc => head_dropWhile_false isPySpace l c hc)]
  rw [wordsPy_dropWhile]

/-- No two adjacent whitespace characters: the relation the output of the
normalizer satisfies. -/
def noTwoWS (a b : Char) : Prop := ¬(isPySpace a = true ∧ isPySpace b = true)

/-- Both run-collapsing modes produce no adjacent whitespace pair. -/
lemma subWsAux_chain (l : List Char) :
    List.Chain' noTwoWS (subWsAux false l) ∧ List.Chain' noTwoWS (subWsAux true l) := by
  induction l with
  | nil => exact ⟨List.chain'_nil, List.chain'_nil⟩
  | cons c rest ih =>
    cases hc : isPySpace c with
    | true =>
      refine ⟨?_, by simpa [subWsAux, hc] using ih.2⟩
      rw [show subWsAux false (c :: rest) = ' ' :: subWsAux true rest by simp [subWsAux, hc]]
      rw [List.chain'_cons']
      refine ⟨?_, ih.2⟩
      intro b hb
      have := subWsAux_true_head rest b hb
      simp [noTwoWS, this]
    | false =>
      have h1 : subWsAux false (c :: rest) = c :: subWsAux false rest := by simp [subWsAux, hc]
      have h2 : subWsAux true (c :: rest) = c :: subWsAux false rest := by simp [subWsAux, hc]
      have hch : List.Chain' noTwoWS (c :: subWsAux false rest) := by
        rw [List.chain'_cons']
        refine ⟨?_, ih.1⟩
        intro b _
        simp [noTwoWS, hc]
      exact ⟨h1 ▸ hch, h2 ▸ hch⟩

/-- Dropping a prefix preserves the no-adjacent-whitespace property. -/
lemma chain'_dropWhile (p : Char → Bool) (l : List Char)
    (h : List.Chain' noTwoWS l) : List.Chain' noTwoWS (l.dropWhile p) := by
  conv at h => rw [← List.takeWhile_append_dropWhile p l]
  exact (List.chain'_append.mp h).2.1

/-- Right-stripping preserves the no-adjacent-whitespace property. -/
lemma chain'_rstrip (l : List Char) (h : List.Chain' noTwoWS l) :
    List.Chain' noTwoWS (rstripWs l) := by
  have hsymm : ∀ {x : List Char}, List.Chain' noTwoWS x → List.Chain' (flip noTwoWS) x :=
    fun hx => hx.imp (fun a b hab => fun ⟨h1, h2⟩ => hab ⟨h2, h1⟩)
  unfold rstripWs
  exact List.chain'_reverse.mpr
    (hsymm (chain'_dropWhile isPySpace l.reverse (List.chain'_reverse.mpr (hsymm h))))

/-- Every character the run collapser emits is non-whitespace or the single
ASCII space it substitutes for a run. -/
lemma subWsAux_chars (l : List Char) : ∀ (b : Bool) (c : Char), c ∈ subWsAux b l →
    isPySpace c = false ∨ c = ' ' := by
  induction l with
  | nil => intro b c hc; simp [subWsAux] at hc
  | cons a rest ih =>
    intro b c hc
    cases ha : isPySpace a with
    | true =>
      cases b with
      | true =>
        rw [show subWsAux true (a :: rest) = subWsAux true rest by simp [subWsAux, ha]] at hc
        exact ih true c hc
      | false =>
        rw [show subWsAux false (a :: rest) = ' ' :: subWsAux true rest
          by simp [subWsAux, ha]] at hc
        rcases List.mem_cons.mp hc with rfl | hc2
        · exact Or.inr rfl
        · exact ih true c hc2
    | false =>
      rw [show subWsAux b (a :: rest) = a :: subWsAux false rest
        by cases b <;> simp [subWsAux, ha]] at hc
      rcases List.mem_cons.mp hc with rfl | hc2
      · exact Or.inl ha
      · exact ih false c hc2

/-- The stripped text is a prefix of its unstripped form. -/
lemma rstrip_prefix_decomp (y : List Char) : ∃ z, y = rstripWs y ++ z := by
  refine ⟨(y.reverse.takeWhile isPySpace).reverse, ?_⟩
  unfold rstripWs
  conv_lhs => rw [← List.reverse_reverse y, ← List.takeWhile_append_dropWhile isPySpace y.reverse]
  rw [List.reverse_append]

/-- Claim C6: `_clean_text` collapses every maximal whitespace run
(newlines and tabs included) to one ASCII space and removes leading and
trailing whitespace — stated as the equality with the whitespace-delimited
words joined by single spaces — is total by construction, maps the empty
string to the empty string, sends `"  a   b  "` to `"a b"`, and its output
has no two adjacent whitespace characters, no leading or trailing
whitespace, and no whitespace other than the ASCII space. -/
theorem c6_clean_text_normalizes (l : List Char) :
    cleanText l = List.intercalate [' '] (wordsPy l) ∧
    cleanText ("".toList) = ("".toList) ∧
    cleanText ("  a   b  ".toList) = ("a b".toList) ∧
    List.Chain' noTwoWS (cleanText l) ∧
    (cleanText l).head?.all (fun c => !isPySpace c) = true ∧
    (cleanText l).getLast?.all (fun c => !isPySpace c) = true ∧
    (cleanText l).all (fun c => !isPySpace c || c = ' ') = true := by
  refine ⟨cleanText_eq_intercalate l, by decide, by decide, ?_, ?_, ?_, ?_⟩
  · exact chain'_rstrip _ (chain'_dropWhile _ _ (subWsAux_chain l).1)
  · cases hh : (cleanText l).head? with
    | none => rfl
    | some c =>
      obtain ⟨z, hz⟩ := rstrip_prefix_decomp ((subWsAux false l).dropWhile isPySpace)
      have hy : ((subWsAux false l).dropWhile isPySpace).head? = some c := by
        rw [hz, List.head?_append]
        have : cleanText l = rstripWs ((subWsAux false l).dropWhile isPySpace) := rfl
        rw [← this, hh]
        rfl
      have := head_dropWhile_false isPySpace (subWsAux false l) c hy
      simp [Option.all, this]
  · have hlast : (cleanText l).getLast? =
        (((subWsAux false l).dropWhile isPySpace).reverse.dropWhile isPySpace).head? := by
      have : cleanText l =
          ((((subWsAux false l).dropWhile isPySpace).reverse.dropWhile isPySpace)).reverse := rfl
      rw [this, List.getLast?_reverse]
    cases hh : (cleanText l).getLast? with
    | none => rfl
    | some c =>
      rw [hlast] at hh
      have := head_dropWhile_false isPySpace
        ((subWsAux false l).dropWhile isPySpace).reverse c hh
      simp [Option.all, this]
  · rw [List.all_eq_true]
    intro x hx
    have hx2 : x ∈ subWsAux false l := by
      have h0 : cleanText l =
          ((((subWsAux false l).dropWhile isPySpace).reverse.dropWhile isPySpace)).reverse := rfl
      rw [h0] at hx
      have h1 := List.mem_reverse.mp hx
      have h2 := (List.dropWhile_sublist isPySpace).subset h1
      have h3 := List.mem_reverse.mp h2
      exact (List.dropWhile_sublist isPySpace).subset h3
    rcases subWsAux_chars l false x hx2 with h | h <;> simp [h]
